import Mathlib

/-!
Verification of the key-record lifecycle and cryptographic dispatch engine of
the `bedrock-ssm-mongodb` KMS backend, as a shallow embedding of its
JavaScript sources.

Conventions used throughout:
* JS objects holding key material are association lists from property names
  to values, in property-insertion order (which JS preserves for string keys
  and which `for(const prop in key)` iterates in).
* Byte strings (`Uint8Array`/`Buffer`) are `List Nat` with each entry < 256.
* Fallible JS code (`throw`) is `Except Err`; `Err` mirrors a thrown error's
  `name`, `message` and the `name` of its `cause`, which is what the
  library's callers and tests observe.
* External cryptographic primitives (the AES-256 block permutation inside
  node's `id-aes256-wrap`, the `jose` JWE encryption) are the capability
  collaborators the spec places out of scope; they are modelled as explicit
  parameters constrained only by their documented contracts, while every
  algorithm implemented by this repository itself (RFC 3394 key wrap
  chaining, HMAC-SHA-256, base64url, property partitioning, dispatch,
  storage, caching) is translated in full.
-/

set_option maxRecDepth 100000

namespace Ssm

/-- A JS value stored in a key object's property (the key objects handled by
this module only carry strings and numbers in their plain properties). -/
inductive Value where
  | str (s : String)
  | num (n : Nat)
deriving DecidableEq, Repr

/-- A plaintext JS key object: association list in property order. -/
abbrev Obj := List (String × Value)

/-- A thrown JS error, as observed by callers: its `name`, `message`, and the
`name` of its `cause` (empty string when there is no cause). -/
structure Err where
  name : String
  message : String
  causeName : String
deriving DecidableEq, Repr

instance exceptDecEq {ε α : Type} [DecidableEq ε] [DecidableEq α] :
    DecidableEq (Except ε α) := fun a b =>
  match a, b with
  | .ok x, .ok y =>
    match decEq x y with
    | isTrue h => isTrue (by rw [h])
    | isFalse h => isFalse (by intro hc; cases hc; exact h rfl)
  | .error x, .error y =>
    match decEq x y with
    | isTrue h => isTrue (by rw [h])
    | isFalse h => isFalse (by intro hc; cases hc; exact h rfl)
  | .ok _, .error _ => isFalse (by intro hc; cases hc)
  | .error _, .ok _ => isFalse (by intro hc; cases hc)

/-! ## base64url codec (the `base64url-universal` collaborator)

The library base64url-encodes and -decodes at every API boundary
(`base64url.encode`/`base64url.decode` in `lib/core/symmetricKey.js`, and
`Buffer.from(s, 'base64url')` in `lib/core/keyAgreementKey.js`).  The codec is
the standard unpadded RFC 4648 §5 encoding, written here with `/` and `%`
arithmetic on byte values. -/

/-- The base64url alphabet, RFC 4648 §5. -/
def B64_ALPHABET : List Char :=
  "ABCDEFGHIJKLMNOPQRSTUVWXYZabcdefghijklmnopqrstuvwxyz0123456789-_".data

/-- Bytes to 6-bit groups (3 bytes become 4 sextets; trailing 1 or 2 bytes
become 2 or 3 sextets, unpadded). -/
def sextetsOfBytes : List Nat → List Nat
  | [] => []
  | [b0] => [b0 / 4, b0 % 4 * 16]
  | [b0, b1] => [b0 / 4, b0 % 4 * 16 + b1 / 16, b1 % 16 * 4]
  | b0 :: b1 :: b2 :: rest =>
    b0 / 4 :: (b0 % 4 * 16 + b1 / 16) :: (b1 % 16 * 4 + b2 / 64) :: b2 % 64 ::
      sextetsOfBytes rest

/-- 6-bit groups back to bytes (4 sextets become 3 bytes; trailing 2 or 3
sextets become 1 or 2 bytes; a lone trailing sextet carries no whole byte and
is dropped, matching `Buffer.from(_, 'base64url')`). -/
def bytesOfSextets : List Nat → List Nat
  | [] => []
  | [_] => []
  | [c0, c1] => [c0 * 4 + c1 / 16]
  | [c0, c1, c2] => [c0 * 4 + c1 / 16, c1 % 16 * 16 + c2 / 4]
  | c0 :: c1 :: c2 :: c3 :: rest =>
    (c0 * 4 + c1 / 16) :: (c1 % 16 * 16 + c2 / 4) :: (c2 % 4 * 64 + c3) ::
      bytesOfSextets rest

/-- Index of a character in the base64url alphabet. -/
def b64CharIndexAux : List Char → Nat → Char → Option Nat
  | [], _, _ => none
  | a :: rest, i, c => if a = c then some i else b64CharIndexAux rest (i + 1) c

def b64CharIndex (c : Char) : Option Nat := b64CharIndexAux B64_ALPHABET 0 c

def b64EncodeChar (n : Nat) : Char := B64_ALPHABET.getD n 'A'

/-- `base64url.encode` on a byte list. -/
def b64Encode (bs : List Nat) : String :=
  String.mk ((sextetsOfBytes bs).map b64EncodeChar)

/-- Lenient decoding in the style of `Buffer.from(s, 'base64url')`: characters
outside the alphabet are skipped, a lone trailing sextet is dropped. -/
def b64DecodeLoose (s : String) : List Nat :=
  bytesOfSextets (s.data.filterMap b64CharIndex)

/-- Strict decoding (`base64url-universal`): every character must be in the
alphabet and the length must be a possible encoding length. -/
def b64Decode (s : String) : Option (List Nat) :=
  if s.data.all (fun c => (b64CharIndex c).isSome) ∧ s.data.length % 4 ≠ 1 then
    some (b64DecodeLoose s)
  else
    none

/-! ## base58 decoding (the `base58-universal` collaborator) -/

/-- The Bitcoin base58 alphabet used by `base58-universal`. -/
def B58_ALPHABET : List Char :=
  "123456789ABCDEFGHJKLMNPQRSTUVWXYZabcdefghijkmnopqrstuvwxyz".data

def b58CharIndex (c : Char) : Option Nat := b64CharIndexAux B58_ALPHABET 0 c

/-- Big-endian bytes of a natural number, structurally recursive on a fuel
argument (the number itself is always enough fuel). -/
def natToBytesBEAux : Nat → Nat → List Nat
  | _, 0 => []
  | 0, _ + 1 => []
  | fuel + 1, n + 1 => natToBytesBEAux fuel ((n + 1) / 256) ++ [(n + 1) % 256]

/-- Big-endian bytes of a natural number (no leading zero bytes). -/
def natToBytesBE (n : Nat) : List Nat := natToBytesBEAux n n

/-- Decode a base58 string to bytes: leading `'1'` characters are leading zero
bytes, the rest is a big-base-58 number; any character outside the alphabet is
a decoding error (`base58-universal` throws). -/
def base58Decode (s : String) : Option (List Nat) :=
  if s.data.all (fun c => (b58CharIndex c).isSome) then
    let value := s.data.foldl (fun n c => n * 58 + (b58CharIndex c).getD 0) 0
    let zeros := (s.data.takeWhile (fun c => c = '1')).length
    some (List.replicate zeros 0 ++ natToBytesBE value)
  else
    none

/-! ## Record cipher (`lib/keySecrets.js`)

`encryptKeySecrets` splits a key object into non-secret and secret
properties; the secret map is JSON-serialized and encrypted by the external
`jose` library (`GeneralEncrypt` with `alg: A256KW`, `enc: A256GCM`) under the
configured KEK.  The JWE produced by that collaborator is modelled
symbolically as an authenticated container that remembers which KEK bytes
encrypted it and yields its plaintext exactly when decrypted with those same
bytes (`generalDecrypt(jwe, otherKey)` fails its authentication check
otherwise). -/

/-- Symbolic JWE bundle produced by `jose`'s `GeneralEncrypt`: the `kid`
placed in the unprotected header, the KEK bytes the recipient was wrapped
for, and the serialized secret-property map that is its plaintext. -/
structure Jwe where
  kid : String
  encKey : List Nat
  plaintext : Obj
deriving DecidableEq, Repr

/-- A property value of a persisted key object: either a plain JS value or
the `encrypted` bundle `{kekId, jwe}`. -/
inductive Field where
  | plain (v : Value)
  | enc (kekId : String) (jwe : Jwe)
deriving DecidableEq, Repr

/-- A persisted key object. -/
abbrev StoredKey := List (String × Field)

/-- `NON_SECRET_PROPERTIES` from `lib/keySecrets.js`. -/
def NON_SECRET_PROPERTIES : List String :=
  ["@context", "id", "type", "controller",
   "publicKeyMultibase", "maxCapabilityChainLength",
   "publicAlias", "publicAliasTemplate"]

/-- The in-memory KEK registry (`KEKS` in `lib/keySecrets.js`): KEK id to raw
secret bytes, populated from configuration by `_loadKeks`. -/
abbrev KekRegistry := List (String × List Nat)

/-- `_getKek` from `lib/keySecrets.js`. -/
def getKek (keks : KekRegistry) (kekId : String) : Except Err (List Nat) :=
  match keks.lookup kekId with
  | some secretKey => .ok secretKey
  | none =>
    .error ⟨"NotFoundError",
      "Key encryption key \"" ++ kekId ++ "\" not found.", ""⟩

/-- The external `generalDecrypt(jwe, secretKey)` capability: authenticated
decryption succeeds exactly under the KEK the bundle was produced for. -/
def generalDecrypt (jwe : Jwe) (secretKey : List Nat) : Except Err Obj :=
  if secretKey = jwe.encKey then .ok jwe.plaintext
  else .error ⟨"JWEDecryptionFailed", "decryption operation failed", ""⟩

/-- Wrap a failure's cause the way `decryptKeySecrets`/`encryptKeySecrets`
catch blocks do: a fresh `OperationError` carrying the original as `cause`. -/
def opErrorWrap (message : String) (cause : Err) : Err :=
  ⟨"OperationError", message, cause.name⟩

/-- JS object spread `{...a, ...b}` on association lists: `a`'s property
order with `b`'s values winning on collision, then `b`'s new properties. -/
def jsSpread (a b : StoredKey) : StoredKey :=
  a.map (fun pv => (pv.1, ((b.lookup pv.1).getD pv.2))) ++
    b.filter (fun pv => pv.1 ∉ a.map Prod.fst)

/-- `delete obj.p` on an association list. -/
def removeProp (o : StoredKey) (p : String) : StoredKey :=
  o.filter (fun pv => pv.1 ≠ p)

/-- `decryptKeySecrets` from `lib/keySecrets.js` (given the KEK registry as
explicit state).  A key without an `encrypted` property passes through; any
failure inside the `try` block — including the `NotFoundError` thrown by
`_getKek` for an unregistered KEK id — is rethrown as an `OperationError`
with the original failure as its `cause`. -/
def decryptKeySecrets (keks : KekRegistry) (key : StoredKey) :
    Except Err StoredKey :=
  match key.lookup "encrypted" with
  | none => .ok key
  | some (.plain _) =>
    -- `const {kekId, jwe} = key.encrypted` on a non-object: a TypeError in
    -- the try block, wrapped like every other failure
    .error (opErrorWrap "Could not decrypt key secrets."
      ⟨"TypeError", "", ""⟩)
  | some (.enc kekId jwe) =>
    match getKek keks kekId with
    | .error e => .error (opErrorWrap "Could not decrypt key secrets." e)
    | .ok secretKey =>
      match generalDecrypt jwe secretKey with
      | .error e => .error (opErrorWrap "Could not decrypt key secrets." e)
      | .ok secrets =>
        .ok (removeProp
          (jsSpread key (secrets.map (fun pv => (pv.1, Field.plain pv.2))))
          "encrypted")

/-- `encryptKeySecrets` from `lib/keySecrets.js`.  `cfg` is
`bedrock.config['ssm-mongodb'].keyRecordEncryption?.kek?.id` (`none` or the
empty string are both falsy `kekId`s and mean "no KEK configured"). -/
def encryptKeySecrets (cfg : Option String) (keks : KekRegistry) (key : Obj) :
    Except Err StoredKey :=
  if (key.lookup "encrypted").isSome then
    .error ⟨"Error",
      "Could not encrypt key secrets; key secrets already encrypted.", ""⟩
  else
    match cfg with
    | none => .ok (key.map (fun pv => (pv.1, Field.plain pv.2)))
    | some kekId =>
      if kekId = "" then .ok (key.map (fun pv => (pv.1, Field.plain pv.2)))
      else
        let nonSecrets := key.filter (fun pv => pv.1 ∈ NON_SECRET_PROPERTIES)
        let secrets := key.filter (fun pv => pv.1 ∉ NON_SECRET_PROPERTIES)
        match getKek keks kekId with
        | .error e => .error (opErrorWrap "Could not encrypt key secrets." e)
        | .ok secretKey =>
          .ok (nonSecrets.map (fun pv => (pv.1, Field.plain pv.2)) ++
            [("encrypted", Field.enc kekId ⟨kekId, secretKey, secrets⟩)])

/-! ## Key storage (`lib/storage/KeyStorage.js`)

Durable records keyed by `(keystoreId, localId)` with a unique index enforced
by the MongoDB collaborator.  `insert` strips `controller`, derives the
compound identifier with `_splitKeyId`, encrypts secrets, and maps a
duplicate-key failure from the store to a public `DuplicateError` while any
other storage failure propagates unchanged. -/

/-- Find the index of the last occurrence of `c`, or `none`. -/
def lastIndexOfChar (cs : List Char) (c : Char) : Option Nat :=
  (b64CharIndexAux cs.reverse 0 c).map (fun i => cs.length - 1 - i)

/-- `_splitKeyId` from `lib/storage/KeyStorage.js`: split the fully-qualified
id on its last `/`; the local id drops its leading multibase character, is
base58-decoded, and drops its 2-byte multicodec header. -/
def splitKeyId (id : String) : Option (String × List Nat) :=
  let cs := id.data
  let idx := (lastIndexOfChar cs '/').map (· + 1) |>.getD 0
  let keystoreId := String.mk (cs.take (idx - 1))
  let localId := cs.drop idx
  (base58Decode (String.mk (localId.drop 1))).map
    (fun bytes => (keystoreId, bytes.drop 2))

/-- `record.meta`. -/
structure Meta where
  created : Nat
  updated : Nat
deriving DecidableEq, Repr

/-- A stored key record. -/
structure KeyRecord where
  keystoreId : String
  localId : List Nat
  meta : Meta
  key : StoredKey
deriving DecidableEq, Repr

/-- The `ssm` collection's contents. -/
abbrev SsmState := List KeyRecord

/-- Whether a record with the given compound identifier exists (what the
collaborator's unique index over `(keystoreId, localId)` checks). -/
def hasRecord (s : SsmState) (ks : String) (lid : List Nat) : Bool :=
  s.any (fun r => r.keystoreId = ks ∧ r.localId = lid)

/-- A failure reported by the MongoDB collaborator: either a uniqueness
violation (`database.isDuplicateError(e)` is true) or any other error. -/
inductive DbError where
  | duplicate
  | other (e : Err)
deriving DecidableEq, Repr

/-- `collection.insertOne` as specified for the storage collaborator: fails
with a duplicate-key error when the unique index is violated; `fault`
injects any other backend failure (network, etc.); otherwise appends. -/
def insertOne (s : SsmState) (fault : Option Err) (r : KeyRecord) :
    Except DbError SsmState :=
  if hasRecord s r.keystoreId r.localId then .error .duplicate
  else
    match fault with
    | some e => .error (.other e)
    | none => .ok (s ++ [r])

/-- `KeyStorage.insert`: returns the call's outcome together with the
collection state after the call. -/
def keyStorageInsert (cfg : Option String) (keks : KekRegistry) (now : Nat)
    (fault : Option Err) (s : SsmState) (key : Obj) :
    Except Err KeyRecord × SsmState :=
  -- remove any `controller` as it is not stored with the key
  let key := key.filter (fun pv => pv.1 ≠ "controller")
  match key.lookup "id" with
  | some (.str id) =>
    match splitKeyId id with
    | some (keystoreId, localId) =>
      match encryptKeySecrets cfg keks key with
      | .error e => (.error e, s)
      | .ok ek =>
        let record : KeyRecord := ⟨keystoreId, localId, ⟨now, now⟩, ek⟩
        match insertOne s fault record with
        | .ok s' => (.ok record, s')
        | .error .duplicate =>
          (.error ⟨"DuplicateError", "Duplicate key identifier.",
            "MongoServerError"⟩, s)
        | .error (.other e) => (.error e, s)
    | none => (.error ⟨"Error", "Non-base58 character", ""⟩, s)
  | _ => (.error ⟨"TypeError", "id must be a string", ""⟩, s)

/-! ## Operation dispatcher (`lib/core/operations.js`) -/

/-- The provider modules of `lib/core/`. -/
inductive ProviderModule where
  | asymmetricKey
  | keyAgreementKey
  | symmetricKey
deriving DecidableEq, Repr

/-- The named operations each provider module exports
(`lib/core/asymmetricKey.js`, `lib/core/keyAgreementKey.js`,
`lib/core/symmetricKey.js`). -/
def moduleExports : ProviderModule → List String
  | .asymmetricKey => ["generateKey", "sign"]
  | .keyAgreementKey => ["generateKey", "deriveSecret"]
  | .symmetricKey => ["generateKey", "sign", "verify", "wrapKey", "unwrapKey"]

/-- The `OPERATIONS` map of `lib/core/operations.js`.  The entries for
`urn:webkms:multikey:X25519` and the three `urn:webkms:multikey:ECDH-P-*`
types are commented out in the source and therefore absent here. -/
def OPERATIONS : List (String × ProviderModule) :=
  [("Ed25519VerificationKey2018", .asymmetricKey),
   ("Ed25519VerificationKey2020", .asymmetricKey),
   ("urn:webkms:multikey:Ed25519", .asymmetricKey),
   ("urn:webkms:multikey:P-256", .asymmetricKey),
   ("urn:webkms:multikey:P-384", .asymmetricKey),
   ("urn:webkms:multikey:P-521", .asymmetricKey),
   ("urn:webkms:multikey:BBS-BLS12-381-SHA-256", .asymmetricKey),
   ("urn:webkms:multikey:BBS-BLS12-381-SHAKE-256", .asymmetricKey),
   ("urn:webkms:multikey:Bls12381G2", .asymmetricKey),
   ("X25519KeyAgreementKey2020", .keyAgreementKey),
   ("AesKeyWrappingKey2019", .symmetricKey),
   ("Sha256HmacKey2019", .symmetricKey)]

/-- A resolved key operation: which provider module's function of which name
`getKeyOp` returned. -/
structure KeyOp where
  mod : ProviderModule
  opName : String
deriving DecidableEq, Repr

/-- `getKeyOp` from `lib/core/operations.js`. -/
def getKeyOp (name ty : String) : Except Err KeyOp :=
  match OPERATIONS.lookup ty with
  | none => .error ⟨"Error", "Unknown key type \"" ++ ty ++ "\".", ""⟩
  | some ops =>
    if name ∈ moduleExports ops then .ok ⟨ops, name⟩
    else
      .error ⟨"Error",
        "Unsupported operation \"" ++ name ++ "\" for key type \"" ++ ty ++
          "\".", ""⟩

/-! ## SHA-256 and HMAC-SHA-256 (node's `crypto.createHmac('sha256', _)`)

`_hs256Sign` delegates to node's HMAC-SHA-256; the algorithm (FIPS 180-4 /
RFC 2104) is implemented here in full over `Nat` with explicit `% 2^32`
truncation. -/

def w32 (n : Nat) : Nat := n % 4294967296

/-- 32-bit right rotation (arguments already reduced mod `2^32`). -/
def rotr32 (n x : Nat) : Nat := w32 (x / 2 ^ n + x % 2 ^ n * 2 ^ (32 - n))

def shaCh (x y z : Nat) : Nat := (x &&& y) ^^^ ((x ^^^ 4294967295) &&& z)

def shaMaj (x y z : Nat) : Nat := (x &&& y) ^^^ (x &&& z) ^^^ (y &&& z)

def shaBigSigma0 (x : Nat) : Nat := rotr32 2 x ^^^ rotr32 13 x ^^^ rotr32 22 x

def shaBigSigma1 (x : Nat) : Nat := rotr32 6 x ^^^ rotr32 11 x ^^^ rotr32 25 x

def shaSmallSigma0 (x : Nat) : Nat := rotr32 7 x ^^^ rotr32 18 x ^^^ (x / 2 ^ 3)

def shaSmallSigma1 (x : Nat) : Nat := rotr32 17 x ^^^ rotr32 19 x ^^^ (x / 2 ^ 10)

/-- SHA-256 round constants (FIPS 180-4 §4.2.2, written in decimal). -/
def SHA_K : List Nat :=
  [1116352408, 1899447441, 3049323471, 3921009573,
   961987163, 1508970993, 2453635748, 2870763221,
   3624381080, 310598401, 607225278, 1426881987,
   1925078388, 2162078206, 2614888103, 3248222580,
   3835390401, 4022224774, 264347078, 604807628,
   770255983, 1249150122, 1555081692, 1996064986,
   2554220882, 2821834349, 2952996808, 3210313671,
   3336571891, 3584528711, 113926993, 338241895,
   666307205, 773529912, 1294757372, 1396182291,
   1695183700, 1986661051, 2177026350, 2456956037,
   2730485921, 2820302411, 3259730800, 3345764771,
   3516065817, 3600352804, 4094571909, 275423344,
   430227734, 506948616, 659060556, 883997877,
   958139571, 1322822218, 1537002063, 1747873779,
   1955562222, 2024104815, 2227730452, 2361852424,
   2428436474, 2756734187, 3204031479, 3329325298]

/-- The eight working registers / hash state words. -/
structure ShaRegs where
  a : Nat
  b : Nat
  c : Nat
  d : Nat
  e : Nat
  f : Nat
  g : Nat
  h : Nat
deriving DecidableEq, Repr

def SHA_H0 : ShaRegs :=
  ⟨1779033703, 3144134277, 1013904242, 2773480762,
   1359893119, 2600822924, 528734635, 1541459225⟩

/-- Big-endian 8-byte encoding of a (64-bit) length or counter value. -/
def natToBytes8BE (n : Nat) : List Nat :=
  [n / 2 ^ 56 % 256, n / 2 ^ 48 % 256, n / 2 ^ 40 % 256, n / 2 ^ 32 % 256,
   n / 2 ^ 24 % 256, n / 2 ^ 16 % 256, n / 2 ^ 8 % 256, n % 256]

/-- FIPS 180-4 padding: append `0x80`, zeros to 56 mod 64, then the bit
length as 8 big-endian bytes. -/
def shaPad (msg : List Nat) : List Nat :=
  let L := msg.length
  let k := (56 + 64 - (L + 1) % 64) % 64
  msg ++ 0x80 :: List.replicate k 0 ++ natToBytes8BE (8 * L)

/-- Big-endian 4-byte groups to 32-bit words. -/
def toWordsBE : List Nat → List Nat
  | b0 :: b1 :: b2 :: b3 :: rest =>
    (b0 * 2 ^ 24 + b1 * 2 ^ 16 + b2 * 2 ^ 8 + b3) :: toWordsBE rest
  | _ => []

/-- Split a list into blocks of `k` elements, structurally recursive on a
fuel argument (the list length is always enough fuel). -/
def chunkAux {α : Type} (k : Nat) : Nat → List α → List (List α)
  | _, [] => []
  | 0, _ :: _ => []
  | fuel + 1, x :: xs => ((x :: xs).take k) :: chunkAux k fuel ((x :: xs).drop k)

/-- Split a word list into 16-word blocks. -/
def chunk16 (ws : List Nat) : List (List Nat) := chunkAux 16 ws.length ws

/-- Extend a 16-word block with `n` additional schedule words. -/
def buildSchedule (ws : List Nat) : Nat → List Nat
  | 0 => ws
  | n + 1 =>
    let w := buildSchedule ws n
    w ++ [w32 (shaSmallSigma1 (w.getD (w.length - 2) 0) +
      w.getD (w.length - 7) 0 +
      shaSmallSigma0 (w.getD (w.length - 15) 0) +
      w.getD (w.length - 16) 0)]

/-- One SHA-256 compression round with round constant and schedule word. -/
def compressRound (st : ShaRegs) (kw : Nat × Nat) : ShaRegs :=
  let t1 := w32 (st.h + shaBigSigma1 st.e + shaCh st.e st.f st.g + kw.1 + kw.2)
  let t2 := w32 (shaBigSigma0 st.a + shaMaj st.a st.b st.c)
  ⟨w32 (t1 + t2), st.a, st.b, st.c, w32 (st.d + t1), st.e, st.f, st.g⟩

/-- Compress one 16-word block into the running hash state. -/
def compressBlock (hs : ShaRegs) (block : List Nat) : ShaRegs :=
  let ws := buildSchedule block 48
  let st := (SHA_K.zip ws).foldl compressRound hs
  ⟨w32 (hs.a + st.a), w32 (hs.b + st.b), w32 (hs.c + st.c), w32 (hs.d + st.d),
   w32 (hs.e + st.e), w32 (hs.f + st.f), w32 (hs.g + st.g), w32 (hs.h + st.h)⟩

/-- Big-endian bytes of one 32-bit word. -/
def wordBytes (w : Nat) : List Nat :=
  [w / 2 ^ 24 % 256, w / 2 ^ 16 % 256, w / 2 ^ 8 % 256, w % 256]

/-- SHA-256 of a byte list: the big-endian bytes of the eight final hash
state words. -/
def sha256Bytes (msg : List Nat) : List Nat :=
  let hs := (chunk16 (toWordsBE (shaPad msg))).foldl compressBlock SHA_H0
  ([hs.a, hs.b, hs.c, hs.d, hs.e, hs.f, hs.g, hs.h].map wordBytes).flatten

/-- HMAC-SHA-256 (RFC 2104): block size 64 bytes. -/
def hmacSha256 (key msg : List Nat) : List Nat :=
  let k0 := if 64 < key.length then sha256Bytes key else key
  let k := k0 ++ List.replicate (64 - k0.length) 0
  let inner := sha256Bytes (k.map (fun b => b ^^^ 0x36) ++ msg)
  sha256Bytes (k.map (fun b => b ^^^ 0x5c) ++ inner)

/-! ## Symmetric key operations (`lib/core/symmetricKey.js`) -/

/-- The decrypted symmetric key object's fields used by the operations. -/
structure SymKey where
  type : String
  secret : String
deriving DecidableEq, Repr

structure SignResult where
  signatureValue : String
deriving DecidableEq, Repr

structure VerifyResult where
  verified : Bool
deriving DecidableEq, Repr

/-- `crypto.timingSafeEqual`: throws a `RangeError` when the buffers differ
in length, otherwise compares (in constant time). -/
def timingSafeEqual (a b : List Nat) : Except Err Bool :=
  if a.length = b.length then .ok (a == b)
  else
    .error ⟨"RangeError",
      "Input buffers must have the same byte length", ""⟩

/-- Failure of `base64url.decode` on malformed input. -/
def b64DecodeErr : Err := ⟨"TypeError", "invalid base64url encoding", ""⟩

/-- `_hs256Sign` from `lib/core/symmetricKey.js`. -/
def hs256Sign (key : SymKey) (verifyData : String) : Except Err (List Nat) :=
  match b64Decode key.secret, b64Decode verifyData with
  | some secret, some data => .ok (hmacSha256 secret data)
  | _, _ => .error b64DecodeErr

/-- `_hs256Verify` from `lib/core/symmetricKey.js`. -/
def hs256Verify (key : SymKey) (verifyData signatureValue : String) :
    Except Err Bool :=
  match b64Decode signatureValue with
  | none => .error b64DecodeErr
  | some sigBytes =>
    match hs256Sign key verifyData with
    | .error e => .error e
    | .ok signatureCheck => timingSafeEqual sigBytes signatureCheck

/-- `sign` from `lib/core/symmetricKey.js`. -/
def symmetricSign (key : SymKey) (verifyData : String) :
    Except Err SignResult :=
  if key.type ≠ "Sha256HmacKey2019" then
    .error ⟨"Error", "Unknown key type \"" ++ key.type ++ "\".", ""⟩
  else
    match hs256Sign key verifyData with
    | .error e => .error e
    | .ok signatureValue => .ok ⟨b64Encode signatureValue⟩

/-- `verify` from `lib/core/symmetricKey.js`. -/
def symmetricVerify (key : SymKey) (verifyData signatureValue : String) :
    Except Err VerifyResult :=
  if key.type ≠ "Sha256HmacKey2019" then
    .error ⟨"Error", "Unknown key type \"" ++ key.type ++ "\".", ""⟩
  else
    match hs256Verify key verifyData signatureValue with
    | .error e => .error e
    | .ok verified => .ok ⟨verified⟩

/-! ## AES key wrap (`lib/core/aeskw.js`, `lib/constants.js`)

`wrapKey`/`unwrapKey` call node's `createCipheriv`/`createDecipheriv` with
algorithm `AES_KW_ALGORITHM = 'id-aes256-wrap'` and the fixed
`AES_KW_RFC3394_IV`.  That OpenSSL algorithm is RFC 3394 AES key wrap; its
chaining structure is implemented here in full, over the AES-256 block
permutation (the external primitive), which appears as an explicit
`BlockCipher` parameter: a 16-byte-block function already keyed with the
KEK's secret bytes. -/

/-- An already-keyed 128-bit block cipher (the external AES-256 primitive
inside `id-aes256-wrap`). -/
abbrev BlockCipher := List Nat → List Nat

/-- `AES_KW_RFC3394_IV` from `lib/constants.js`:
`Buffer.from('A6A6A6A6A6A6A6A6', 'hex')`. -/
def AES_KW_RFC3394_IV : List Nat :=
  [0xa6, 0xa6, 0xa6, 0xa6, 0xa6, 0xa6, 0xa6, 0xa6]

/-- Bytewise xor of two equal-length byte lists. -/
def xorBytes (a b : List Nat) : List Nat := List.zipWith (· ^^^ ·) a b

/-- Accumulating map with a running step index (RFC 3394's `t = n*j+i`
counter), processing the list left to right. -/
def mapAccumLIdx {α β : Type} (f : Nat → α → β → α × β) :
    Nat → α → List β → α × List β
  | _, a, [] => (a, [])
  | i, a, b :: bs =>
    let ab := f i a b
    let rec' := mapAccumLIdx f (i + 1) ab.1 bs
    (rec'.1, ab.2 :: rec'.2)

/-- Accumulating map with a running step index, processing the list right to
left (higher indices first), as RFC 3394 unwrapping does. -/
def mapAccumRIdx {α β : Type} (g : Nat → α → β → α × β) :
    Nat → α → List β → α × List β
  | _, a, [] => (a, [])
  | i, a, b :: bs =>
    let rec' := mapAccumRIdx g (i + 1) a bs
    let ab := g i rec'.1 b
    (ab.1, ab.2 :: rec'.2)

/-- One RFC 3394 wrap step: `B = AES(K, A | R_i)`, then
`A = MSB64(B) ^ t` and `R_i = LSB64(B)`. -/
def kwWrapStep (E : BlockCipher) (t : Nat) (A Ri : List Nat) :
    List Nat × List Nat :=
  let B := E (A ++ Ri)
  (xorBytes (B.take 8) (natToBytes8BE t), B.drop 8)

/-- One RFC 3394 unwrap step: `B = AES⁻¹(K, (A ^ t) | R_i)`, then
`A = MSB64(B)` and `R_i = LSB64(B)`. -/
def kwUnwrapStep (D : BlockCipher) (t : Nat) (A Ri : List Nat) :
    List Nat × List Nat :=
  let B := D (xorBytes A (natToBytes8BE t) ++ Ri)
  (B.take 8, B.drop 8)

/-- Wrap round `j` over the `n` registers, `t` running from `n*j+1`. -/
def kwWrapRound (E : BlockCipher) (n j : Nat)
    (s : List Nat × List (List Nat)) : List Nat × List (List Nat) :=
  mapAccumLIdx (kwWrapStep E) (n * j + 1) s.1 s.2

/-- Unwrap round `j`, undoing wrap round `j` right to left. -/
def kwUnwrapRound (D : BlockCipher) (n j : Nat)
    (s : List Nat × List (List Nat)) : List Nat × List (List Nat) :=
  mapAccumRIdx (kwUnwrapStep D) (n * j + 1) s.1 s.2

/-- Split bytes into 8-byte blocks. -/
def toBlocks8 (bs : List Nat) : List (List Nat) := chunkAux 8 bs.length bs

/-- `wrapKey({secretKey, unwrapped})` from `lib/core/aeskw.js`: RFC 3394
wrap with the fixed `AES_KW_RFC3394_IV` (never a random IV), six rounds. -/
def aeskwWrapKey (E : BlockCipher) (unwrapped : List Nat) : List Nat :=
  let Rs := toBlocks8 unwrapped
  let n := Rs.length
  let s := (List.range 6).foldl (fun s j => kwWrapRound E n j s)
    (AES_KW_RFC3394_IV, Rs)
  s.1 ++ s.2.flatten

/-- `unwrapKey({secretKey, wrapped})` from `lib/core/aeskw.js`: RFC 3394
unwrap; the recovered `A` must equal the fixed IV or the decipher's final
integrity check fails (`none`). -/
def aeskwUnwrapKey (D : BlockCipher) (wrapped : List Nat) :
    Option (List Nat) :=
  let A := wrapped.take 8
  let Rs := toBlocks8 (wrapped.drop 8)
  let n := Rs.length
  let s := (List.range 6).reverse.foldl (fun s j => kwUnwrapRound D n j s)
    (A, Rs)
  if s.1 = AES_KW_RFC3394_IV then some s.2.flatten else none

/-! ## Key agreement (`lib/core/keyAgreementKey.js`) -/

/-- `SUPPORTED_MULTIKEY_TYPES` from `lib/core/keyAgreementKey.js`: hex of the
2-byte multikey header to the internal key type. -/
def SUPPORTED_MULTIKEY_TYPES : List (String × String) :=
  [("ec01", "urn:webkms:multikey:X25519"),
   ("8024", "urn:webkms:multikey:ECDH-P-256"),
   ("8124", "urn:webkms:multikey:ECDH-P-384"),
   ("8224", "urn:webkms:multikey:ECDH-P-521")]

def hexDigit (n : Nat) : Char :=
  ("0123456789abcdef".data).getD n '0'

/-- `Buffer.toString('hex')` of a byte list. -/
def bytesToHex (bs : List Nat) : String :=
  String.mk (bs.foldr (fun b acc => hexDigit (b / 16 % 16) :: hexDigit (b % 16) :: acc) [])

/-- The peer-supplied public key of a `deriveSecret` operation: either a
legacy explicit-type form or a `Multikey` whose concrete type must be sniffed
from the encoded header. -/
structure PeerPublicKey where
  type : String
  publicKeyMultibase : Option String
deriving DecidableEq, Repr

/-- The stored key-agreement key's fields relevant to type matching. -/
structure KakKey where
  type : String
deriving DecidableEq, Repr

/-- `_parseMultikey` from `lib/core/keyAgreementKey.js`: decode the multibase
header (`z` base58 / `u` base64url), then look the 2-byte multikey header up
in `SUPPORTED_MULTIKEY_TYPES`; unrecognized headers fail explicitly. -/
def parseMultikey (mb : Option String) : Except Err String :=
  let headErr := fun (hs : String) =>
    Err.mk "NotSupportedError"
      ("Unsupported multibase header \"" ++ hs ++ "\".") ""
  match mb with
  | none => .error (headErr "undefined")
  | some s =>
    match s.data.head? with
    | none => .error (headErr "undefined")
    | some mbHeader =>
      let decoded : Except Err (List Nat) :=
        if mbHeader = 'z' then
          match base58Decode (String.mk (s.data.drop 1)) with
          | some bytes => .ok bytes
          | none => .error ⟨"Error", "Non-base58 character", ""⟩
        else if mbHeader = 'u' then
          .ok (b64DecodeLoose (String.mk (s.data.drop 1)))
        else
          .error (headErr (String.mk [mbHeader]))
      match decoded with
      | .error e => .error e
      | .ok multikey =>
        let header := bytesToHex (multikey.take 2)
        match SUPPORTED_MULTIKEY_TYPES.lookup header with
        | some ty => .ok ty
        | none =>
          .error ⟨"NotSupportedError",
            "Unsupported multikey header \"" ++ header ++ "\".", ""⟩

/-- The peer public key's resolved type: sniffed from the multikey header for
an encoded canonical (`Multikey`) key, taken directly otherwise. -/
def resolvePeerType (publicKey : PeerPublicKey) : Except Err String :=
  if publicKey.type = "Multikey" then parseMultikey publicKey.publicKeyMultibase
  else .ok publicKey.type

/-- `deriveSecret` from `lib/core/keyAgreementKey.js`.  `cap` is the external
elliptic-curve capability (`X25519KeyAgreementKey2020`/`EcdsaMultikey`
`deriveSecret`), invoked only after the type check passes; the raw shared
secret is returned base64url-encoded. -/
def kakDeriveSecret (cap : Unit → Except Err (List Nat)) (key : KakKey)
    (publicKey : PeerPublicKey) : Except Err String :=
  match resolvePeerType publicKey with
  | .error e => .error e
  | .ok ty =>
    if ty ≠ key.type then
      .error ⟨"Error",
        "The given public key type \"" ++ ty ++ "\" does not match the " ++
          "key agreement key's type \"" ++ key.type ++ "\".", ""⟩
    else
      match cap () with
      | .error e => .error e
      | .ok secret => .ok (b64Encode secret)

/-! ## Authorization guard (`lib/index.js`, `_checkZcapInvocationRules`) -/

/-- The zcap invocation's dereferenced capability chain (only its length is
inspected). -/
structure ZcapInvocation where
  dereferencedChain : List Unit
deriving DecidableEq, Repr

/-- `_checkZcapInvocationRules` from `lib/index.js`. -/
def checkZcapInvocationRules (maxCapabilityChainLength : Option Nat)
    (zcapInvocation : Option ZcapInvocation) : Except Err Unit :=
  match zcapInvocation with
  | none => .ok ()
  | some z =>
    match maxCapabilityChainLength with
    | none => .ok ()
    | some m =>
      if m < z.dereferencedChain.length then
        .error ⟨"Error",
          "Maximum zcap invocation capability chain length (" ++
            toString m ++ ") exceeded.", ""⟩
      else .ok ()

/-- A gated operation (`sign`, `verify`, `wrapKey`, `unwrapKey`,
`deriveSecret` in `lib/index.js`): the guard runs first; the cryptographic
work `cryptoOp` is invoked only if it passes. -/
def gatedOperation {α : Type} (maxCapabilityChainLength : Option Nat)
    (zcapInvocation : Option ZcapInvocation)
    (cryptoOp : Unit → Except Err α) : Except Err α :=
  match checkZcapInvocationRules maxCapabilityChainLength zcapInvocation with
  | .error e => .error e
  | .ok _ => cryptoOp ()

/-! ## Read-through cache with request coalescing (`lib/index.js`,
`_getKeyRecord`)

JS is single-threaded with run-to-completion: the section of
`_getKeyRecord` from `KEY_RECORD_CACHE.get(id)` up to and including
`KEY_RECORD_CACHE.set(id, promise)` (which also *starts* the storage fetch
by calling `_getUncachedKeyRecord`) runs atomically before the caller first
suspends at `await`.  The model's `CacheEvent.get` is exactly that atomic
section for one caller; `CacheEvent.settleFail` is the settlement of the
in-flight fetch with a failure, upon which every awaiting caller's `catch`
block runs `KEY_RECORD_CACHE.delete(id)` and rethrows; `CacheEvent.settleOk`
is a successful settlement (the entry stays cached).  Promises are numbered
by the order their fetches started; `fetches` counts started storage
fetches; `results` records which promise each caller ends up awaiting. -/

inductive CacheEvent where
  | get (caller : Nat)
  | settleFail
  | settleOk
deriving DecidableEq, Repr

structure CacheState where
  entry : Option Nat
  fetches : Nat
  results : List (Nat × Nat)
deriving DecidableEq, Repr

def initialCacheState : CacheState := ⟨none, 0, []⟩

def cacheStep (s : CacheState) (e : CacheEvent) : CacheState :=
  match e with
  | .get c =>
    match s.entry with
    | some p => ⟨some p, s.fetches, s.results ++ [(c, p)]⟩
    | none => ⟨some s.fetches, s.fetches + 1, s.results ++ [(c, s.fetches)]⟩
  | .settleFail => ⟨none, s.fetches, s.results⟩
  | .settleOk => s

def runCache (s : CacheState) (es : List CacheEvent) : CacheState :=
  es.foldl cacheStep s

def getEvents (callers : List Nat) : List CacheEvent :=
  callers.map CacheEvent.get

/-! # Theorems -/

/-! ## General association-list lemmas -/

theorem lookup_eq_none_iff {α : Type} [DecidableEq α] {β : Type}
    (l : List (α × β)) (k : α) :
    l.lookup k = none ↔ k ∉ l.map Prod.fst := by
  induction l with
  | nil => simp [List.lookup]
  | cons hd tl ih =>
    simp only [List.lookup, List.map_cons, List.mem_cons]
    by_cases hk : k = hd.1
    · subst hk
      simp
    · have : (k == hd.1) = false := by
        simp [hk]
      simp [this, ih, hk, Ne.symm]

theorem lookup_append_left {α : Type} [DecidableEq α] {β : Type}
    (l₁ l₂ : List (α × β)) (k : α) (h : l₁.lookup k = none) :
    (l₁ ++ l₂).lookup k = l₂.lookup k := by
  induction l₁ with
  | nil => simp
  | cons hd tl ih =>
    simp only [List.cons_append, List.lookup] at h ⊢
    cases hbeq : (k == hd.1) with
    | true => rw [hbeq] at h; exact Option.noConfusion h
    | false => simp only [hbeq] at h ⊢; exact ih h

theorem lookup_map_plain (l : Obj) (k : String) :
    ((l.map (fun pv => (pv.1, Field.plain pv.2))).lookup k) =
      (l.lookup k).map Field.plain := by
  induction l with
  | nil => simp [List.lookup]
  | cons hd tl ih =>
    simp only [List.map_cons, List.lookup]
    cases hbeq : (k == hd.1) <;> simp [ih]

theorem lookup_filter_key {α : Type} [DecidableEq α] {β : Type}
    (l : List (α × β)) (p : α → Bool) (k : α) (hp : p k = true) :
    (l.filter (fun pv => p pv.1)).lookup k = l.lookup k := by
  induction l with
  | nil => simp
  | cons hd tl ih =>
    by_cases hk : k = hd.1
    · subst hk
      simp [List.filter, hp, List.lookup]
    · have hbeq : (k == hd.1) = false := by simp [hk]
      cases hph : p hd.1 <;> simp [List.filter, hph, List.lookup, hbeq, ih]

/-! ## C8: capability-chain-length guard -/

/-- **C8.** For every gated operation invoked with an authorization context:
it fails with a hard error whose message names the configured limit exactly
when the key's `maxCapabilityChainLength` is set and the supplied chain's
length exceeds it, and the error is raised before any cryptographic work runs
(the result is the same for every possible `cryptoOp`); when either the limit
or the authorization context is absent, the operation is permitted. -/
theorem c8_zcap_guard (α : Type) :
    (∀ (m : Nat) (z : ZcapInvocation) (f g : Unit → Except Err α),
      m < z.dereferencedChain.length →
        gatedOperation (some m) (some z) f =
          .error ⟨"Error",
            "Maximum zcap invocation capability chain length (" ++
              toString m ++ ") exceeded.", ""⟩ ∧
        gatedOperation (some m) (some z) f =
          gatedOperation (some m) (some z) g) ∧
    (∀ (m : Nat) (z : ZcapInvocation) (f : Unit → Except Err α),
      z.dereferencedChain.length ≤ m →
        gatedOperation (some m) (some z) f = f ()) ∧
    (∀ (z : Option ZcapInvocation) (f : Unit → Except Err α),
      gatedOperation none z f = f ()) ∧
    (∀ (ml : Option Nat) (f : Unit → Except Err α),
      gatedOperation ml none f = f ()) := by
  refine ⟨?_, ?_, ?_, ?_⟩
  · intro m z f g hlen
    simp [gatedOperation, checkZcapInvocationRules, hlen]
  · intro m z f hlen
    simp [gatedOperation, checkZcapInvocationRules, Nat.not_lt.mpr hlen]
  · intro z f
    cases z <;> simp [gatedOperation, checkZcapInvocationRules]
  · intro ml f
    simp [gatedOperation, checkZcapInvocationRules]

/-- Witness for C8 at concrete inputs: a key limit of 1 with a chain of
length 2 is rejected with the limit named in the message, while chain length
1 and an absent context are permitted. -/
theorem c8_zcap_guard_witness :
    gatedOperation (some 1) (some ⟨[(), ()]⟩) (fun _ => Except.ok (0 : Nat)) =
      .error ⟨"Error",
        "Maximum zcap invocation capability chain length (" ++
          toString 1 ++ ") exceeded.", ""⟩ ∧
    gatedOperation (some 1) (some ⟨[()]⟩) (fun _ => Except.ok (0 : Nat)) =
      .ok 0 ∧
    gatedOperation (some 1) none (fun _ => Except.ok (0 : Nat)) = .ok 0 :=
  ⟨((c8_zcap_guard Nat).1 1 ⟨[(), ()]⟩ (fun _ => .ok 0) (fun _ => .ok 0)
      (by decide)).1,
   (c8_zcap_guard Nat).2.1 1 ⟨[()]⟩ (fun _ => .ok 0) (by decide),
   (c8_zcap_guard Nat).2.2.2 (some 1) (fun _ => .ok 0)⟩

/-! ## C4: operation dispatcher -/

/-- **C4 is corrected by this counterexample.**  The claim asserts that the
key-agreement types ECDH P-256/384/521 are supported by the dispatcher, but
their `OPERATIONS` entries are commented out in `lib/core/operations.js`:
`getKeyOp` fails with the unknown-key-type error instead of returning the
key-agreement provider's `deriveSecret`. -/
theorem c4_ecdh_not_registered_counterexample :
    getKeyOp "deriveSecret" "urn:webkms:multikey:ECDH-P-256" =
      .error ⟨"Error",
        "Unknown key type \"urn:webkms:multikey:ECDH-P-256\".", ""⟩ ∧
    OPERATIONS.lookup "urn:webkms:multikey:ECDH-P-256" = none := by
  constructor <;> rfl

/-- **C4 (amended).** `getKeyOp` returns the registered provider module's
function whenever the key type is registered and the module implements the
operation — which, for key agreement, holds only for
`X25519KeyAgreementKey2020` (the `urn:webkms:multikey:X25519` and ECDH
multikey entries are commented out and unregistered); otherwise it fails
closed with the unknown-key-type error for an unregistered type and the
unsupported-operation error for a registered type whose module does not
implement the operation.  The lookup is a pure function of its inputs. -/
theorem c4_get_key_op_dispatch :
    (∀ (name ty : String) (m : ProviderModule),
      OPERATIONS.lookup ty = some m → name ∈ moduleExports m →
        getKeyOp name ty = .ok ⟨m, name⟩) ∧
    (∀ name ty, OPERATIONS.lookup ty = none →
      getKeyOp name ty =
        .error ⟨"Error", "Unknown key type \"" ++ ty ++ "\".", ""⟩) ∧
    (∀ (name ty : String) (m : ProviderModule),
      OPERATIONS.lookup ty = some m → name ∉ moduleExports m →
        getKeyOp name ty =
          .error ⟨"Error",
            "Unsupported operation \"" ++ name ++ "\" for key type \"" ++
              ty ++ "\".", ""⟩) ∧
    getKeyOp "deriveSecret" "X25519KeyAgreementKey2020" =
      .ok ⟨.keyAgreementKey, "deriveSecret"⟩ ∧
    OPERATIONS.lookup "urn:webkms:multikey:ECDH-P-256" = none ∧
    OPERATIONS.lookup "urn:webkms:multikey:ECDH-P-384" = none ∧
    OPERATIONS.lookup "urn:webkms:multikey:ECDH-P-521" = none ∧
    OPERATIONS.lookup "urn:webkms:multikey:X25519" = none := by
  refine ⟨?_, ?_, ?_, by rfl, by rfl, by rfl, by rfl, by rfl⟩
  · intro name ty m hm hname
    simp [getKeyOp, hm, hname]
  · intro name ty hm
    simp [getKeyOp, hm]
  · intro name ty m hm hname
    simp [getKeyOp, hm, hname]

/-- Witness for C4 at concrete inputs: a supported (type, operation) pair
resolves, an unknown type fails, and a registered type without the requested
operation fails. -/
theorem c4_get_key_op_dispatch_witness :
    getKeyOp "sign" "Sha256HmacKey2019" = .ok ⟨.symmetricKey, "sign"⟩ ∧
    getKeyOp "sign" "NotAKeyType" =
      .error ⟨"Error", "Unknown key type \"NotAKeyType\".", ""⟩ ∧
    getKeyOp "sign" "X25519KeyAgreementKey2020" =
      .error ⟨"Error",
        "Unsupported operation \"sign\" for key type " ++
          "\"X25519KeyAgreementKey2020\".", ""⟩ :=
  ⟨c4_get_key_op_dispatch.1 "sign" "Sha256HmacKey2019" .symmetricKey
      (by rfl) (by decide),
   c4_get_key_op_dispatch.2.1 "sign" "NotAKeyType" (by rfl),
   c4_get_key_op_dispatch.2.2.1 "sign" "X25519KeyAgreementKey2020"
      .keyAgreementKey (by rfl) (by decide)⟩

/-! ## C7: request coalescing and failure eviction -/

theorem runCache_append (s : CacheState) (es₁ es₂ : List CacheEvent) :
    runCache s (es₁ ++ es₂) = runCache (runCache s es₁) es₂ := by
  simp [runCache, List.foldl_append]

theorem runCache_gets_of_entry_some (cs : List Nat) :
    ∀ (s : CacheState) (p : Nat), s.entry = some p →
      runCache s (getEvents cs) =
        ⟨some p, s.fetches, s.results ++ cs.map (fun c => (c, p))⟩ := by
  induction cs with
  | nil => intro s p hp; cases s; simp_all [runCache, getEvents]
  | cons c cs ih =>
    intro s p hp
    have hstep : cacheStep s (.get c) =
        ⟨some p, s.fetches, s.results ++ [(c, p)]⟩ := by
      simp [cacheStep, hp]
    simp only [getEvents, List.map_cons, runCache, List.foldl_cons, hstep]
    have := ih ⟨some p, s.fetches, s.results ++ [(c, p)]⟩ p rfl
    simp only [runCache, getEvents] at this
    simp [this]

theorem runCache_gets_of_entry_none (cs : List Nat) (s : CacheState)
    (hcs : cs ≠ []) (hp : s.entry = none) :
    runCache s (getEvents cs) =
      ⟨some s.fetches, s.fetches + 1,
        s.results ++ cs.map (fun c => (c, s.fetches))⟩ := by
  cases cs with
  | nil => exact absurd rfl hcs
  | cons c cs =>
    have hstep : cacheStep s (.get c) =
        ⟨some s.fetches, s.fetches + 1, s.results ++ [(c, s.fetches)]⟩ := by
      simp [cacheStep, hp]
    simp only [getEvents, List.map_cons, runCache, List.foldl_cons, hstep]
    have := runCache_gets_of_entry_some cs
      ⟨some s.fetches, s.fetches + 1, s.results ++ [(c, s.fetches)]⟩
      s.fetches rfl
    simp only [runCache, getEvents] at this
    simp [this]

/-- **C7.** For every key id and every batch of concurrent `get` calls
arriving while the id is uncached, exactly one underlying storage fetch is
started and every caller awaits that single in-flight promise (promise `0`);
if that fetch settles with a failure, the cache entry is evicted at once
(`entry = none`), so a later batch of callers never receives the failed
promise: it starts exactly one fresh fetch (promise `1`) that all of its
callers share. -/
theorem c7_cache_single_flight (callers₁ callers₂ : List Nat)
    (h1 : callers₁ ≠ []) (h2 : callers₂ ≠ []) :
    (runCache initialCacheState (getEvents callers₁)).fetches = 1 ∧
    (runCache initialCacheState (getEvents callers₁)).results =
      callers₁.map (fun c => (c, 0)) ∧
    (runCache initialCacheState
      (getEvents callers₁ ++ [CacheEvent.settleFail])).entry = none ∧
    (runCache initialCacheState
      (getEvents callers₁ ++ CacheEvent.settleFail :: getEvents callers₂)) =
      ⟨some 1, 2,
        callers₁.map (fun c => (c, 0)) ++ callers₂.map (fun c => (c, 1))⟩ := by
  have hrun1 := runCache_gets_of_entry_none callers₁ initialCacheState h1 rfl
  have hmid :
      runCache initialCacheState (getEvents callers₁ ++ [CacheEvent.settleFail]) =
        ⟨none, 1, callers₁.map (fun c => (c, 0))⟩ := by
    rw [runCache_append, hrun1]
    simp [runCache, cacheStep, initialCacheState]
  refine ⟨by rw [hrun1]; rfl, by rw [hrun1]; simp [initialCacheState],
    by rw [hmid], ?_⟩
  have hsplit : getEvents callers₁ ++ CacheEvent.settleFail :: getEvents callers₂ =
      (getEvents callers₁ ++ [CacheEvent.settleFail]) ++ getEvents callers₂ := by
    simp
  rw [hsplit, runCache_append, hmid,
    runCache_gets_of_entry_none callers₂ _ h2 rfl]

/-- Witness for C7 at concrete inputs: three concurrent callers coalesce on
one fetch; after a failure settles, two later callers coalesce on a single
fresh fetch. -/
theorem c7_cache_single_flight_witness :
    (runCache initialCacheState (getEvents [10, 11, 12])).fetches = 1 ∧
    (runCache initialCacheState (getEvents [10, 11, 12])).results =
      [(10, 0), (11, 0), (12, 0)] ∧
    (runCache initialCacheState
      (getEvents [10, 11, 12] ++ [CacheEvent.settleFail])).entry = none ∧
    (runCache initialCacheState
      (getEvents [10, 11, 12] ++
        CacheEvent.settleFail :: getEvents [13, 14])) =
      ⟨some 1, 2, [(10, 0), (11, 0), (12, 0), (13, 1), (14, 1)]⟩ :=
  c7_cache_single_flight [10, 11, 12] [13, 14] (by decide) (by decide)

/-! ## C1: record-secret encryption partitions exactly on the non-secret
allow-list -/

/-- **C1.** For every key object processed by `encryptKeySecrets` with a KEK
configured (and registered), the persisted key object contains exactly the
input's properties from the fixed non-secret set plus a single `encrypted`
property of the form `{kekId, jwe}`; every property outside that set appears
(with its value) only inside the encrypted bundle's plaintext and is absent
from the persisted object. -/
theorem c1_encrypt_key_secrets_partitions (keks : KekRegistry) (key : Obj)
    (kekId : String) (kek : List Nat)
    (hne : key.lookup "encrypted" = none)
    (hid : kekId ≠ "")
    (hkek : keks.lookup kekId = some kek) :
    ∃ (ek : StoredKey) (jwe : Jwe),
      encryptKeySecrets (some kekId) keks key = .ok ek ∧
      (∀ p, p ∈ ek.map Prod.fst ↔
        ((p ∈ key.map Prod.fst ∧ p ∈ NON_SECRET_PROPERTIES) ∨
          p = "encrypted")) ∧
      (ek.map Prod.fst).count "encrypted" = 1 ∧
      ek.lookup "encrypted" = some (.enc kekId jwe) ∧
      (∀ p v, (p, v) ∈ key → p ∈ NON_SECRET_PROPERTIES →
        (p, Field.plain v) ∈ ek) ∧
      (∀ p v, (p, v) ∈ key → p ∉ NON_SECRET_PROPERTIES →
        ek.lookup p = none ∧ (p, v) ∈ jwe.plaintext) := by
  have hencNotMem : "encrypted" ∉ key.map Prod.fst :=
    (lookup_eq_none_iff key "encrypted").mp hne
  set ns := key.filter (fun pv => pv.1 ∈ NON_SECRET_PROPERTIES) with hns
  set secrets := key.filter (fun pv => pv.1 ∉ NON_SECRET_PROPERTIES) with hsec
  set jwe : Jwe := ⟨kekId, kek, secrets⟩ with hjwe
  set ek : StoredKey := ns.map (fun pv => (pv.1, Field.plain pv.2)) ++
    [("encrypted", Field.enc kekId jwe)] with hek
  have henc : encryptKeySecrets (some kekId) keks key = .ok ek := by
    simp [encryptKeySecrets, hne, hid, getKek, hkek, hek, hns, hsec, hjwe]
  have hnsNames : (ns.map (fun pv => (pv.1, Field.plain pv.2))).map Prod.fst =
      ns.map Prod.fst := by
    simp [List.map_map, Function.comp]
  have hnsSub : ∀ p, p ∈ ns.map Prod.fst →
      p ∈ key.map Prod.fst ∧ p ∈ NON_SECRET_PROPERTIES := by
    intro p hp
    obtain ⟨pv, hpv, rfl⟩ := List.mem_map.mp hp
    rw [hns] at hpv
    obtain ⟨hmem, hdec⟩ := List.mem_filter.mp hpv
    exact ⟨List.mem_map.mpr ⟨pv, hmem, rfl⟩, by simpa using hdec⟩
  have hencNotNs : "encrypted" ∉ ns.map Prod.fst := by
    intro hcon
    exact hencNotMem (hnsSub "encrypted" hcon).1
  refine ⟨ek, jwe, henc, ?_, ?_, ?_, ?_, ?_⟩
  · intro p
    rw [hek, List.map_append, hnsNames]
    simp only [List.map_cons, List.map_nil, List.mem_append,
      List.mem_singleton]
    constructor
    · rintro (hin | rfl)
      · exact Or.inl (hnsSub p hin)
      · exact Or.inr rfl
    · rintro (⟨hkey, hprop⟩ | rfl)
      · left
        obtain ⟨pv, hpv, rfl⟩ := List.mem_map.mp hkey
        exact List.mem_map.mpr ⟨pv,
          List.mem_filter.mpr ⟨hpv, by simpa using hprop⟩, rfl⟩
      · exact Or.inr rfl
  · rw [hek, List.map_append, hnsNames]
    rw [List.count_append]
    rw [List.count_eq_zero_of_not_mem hencNotNs]
    simp
  · have hl : (ns.map (fun pv => (pv.1, Field.plain pv.2))).lookup
        "encrypted" = none := by
      rw [lookup_eq_none_iff, hnsNames]
      exact hencNotNs
    rw [hek, lookup_append_left _ _ _ hl]
    simp [List.lookup]
  · intro p v hpv hprop
    rw [hek]
    refine List.mem_append_left _ ?_
    exact List.mem_map.mpr ⟨(p, v),
      List.mem_filter.mpr ⟨hpv, by simpa using hprop⟩, rfl⟩
  · intro p v hpv hprop
    have hpNe : p ≠ "encrypted" := by
      intro hcon
      exact hencNotMem (hcon ▸ List.mem_map.mpr ⟨(p, v), hpv, rfl⟩)
    have hpNotNs : p ∉ ns.map Prod.fst := by
      intro hcon
      exact hprop (hnsSub p hcon).2
    have hl : (ns.map (fun pv => (pv.1, Field.plain pv.2))).lookup p =
        none := by
      rw [lookup_eq_none_iff, hnsNames]
      exact hpNotNs
    constructor
    · rw [hek, lookup_append_left _ _ _ hl]
      have hbeq : (p == "encrypted") = false := by simp [hpNe]
      simp [List.lookup, hbeq]
    · rw [hjwe]
      exact List.mem_filter.mpr ⟨hpv, by simpa using hprop⟩

/-- Witness for C1 at a concrete key: an HMAC key's `secret` property moves
into the encrypted bundle while `id` and `type` stay plain. -/
theorem c1_encrypt_key_secrets_partitions_witness :
    ∃ (ek : StoredKey) (jwe : Jwe),
      encryptKeySecrets (some "urn:test:aes256")
        [("urn:test:aes256", [1, 2, 3])]
        [("id", .str "https://example.com/kms/z11"),
         ("type", .str "Sha256HmacKey2019"),
         ("secret", .str "8vEgpnq8F6QVRmaSYPHTKKZyCXMOgRLiBdZPcfYnIfI")] =
        .ok ek ∧
      (∀ p, p ∈ ek.map Prod.fst ↔
        ((p ∈ ([("id", Value.str "https://example.com/kms/z11"),
            ("type", Value.str "Sha256HmacKey2019"),
            ("secret",
              Value.str "8vEgpnq8F6QVRmaSYPHTKKZyCXMOgRLiBdZPcfYnIfI")] :
              Obj).map Prod.fst ∧
          p ∈ NON_SECRET_PROPERTIES) ∨ p = "encrypted")) ∧
      (ek.map Prod.fst).count "encrypted" = 1 ∧
      ek.lookup "encrypted" = some (.enc "urn:test:aes256" jwe) ∧
      (∀ p v, (p, v) ∈ ([("id", Value.str "https://example.com/kms/z11"),
          ("type", Value.str "Sha256HmacKey2019"),
          ("secret",
            Value.str "8vEgpnq8F6QVRmaSYPHTKKZyCXMOgRLiBdZPcfYnIfI")] :
            Obj) → p ∈ NON_SECRET_PROPERTIES → (p, Field.plain v) ∈ ek) ∧
      (∀ p v, (p, v) ∈ ([("id", Value.str "https://example.com/kms/z11"),
          ("type", Value.str "Sha256HmacKey2019"),
          ("secret",
            Value.str "8vEgpnq8F6QVRmaSYPHTKKZyCXMOgRLiBdZPcfYnIfI")] :
            Obj) → p ∉ NON_SECRET_PROPERTIES →
            ek.lookup p = none ∧ (p, v) ∈ jwe.plaintext) :=
  c1_encrypt_key_secrets_partitions
    [("urn:test:aes256", [1, 2, 3])]
    [("id", .str "https://example.com/kms/z11"),
     ("type", .str "Sha256HmacKey2019"),
     ("secret", .str "8vEgpnq8F6QVRmaSYPHTKKZyCXMOgRLiBdZPcfYnIfI")]
    "urn:test:aes256" [1, 2, 3] (by rfl) (by decide) (by rfl)

/-! ## C2: record-secret decryption -/

theorem lookup_append_some {α : Type} [DecidableEq α] {β : Type}
    (l₁ l₂ : List (α × β)) (k : α) (x : β) (h : l₁.lookup k = some x) :
    (l₁ ++ l₂).lookup k = some x := by
  induction l₁ with
  | nil => simp [List.lookup] at h
  | cons hd tl ih =>
    simp only [List.cons_append, List.lookup] at h ⊢
    cases hbeq : (k == hd.1) with
    | true => rw [hbeq] at h; exact h
    | false => rw [hbeq] at h; exact ih h

theorem lookup_filter_ne_self {β : Type} (l : List (String × β)) (q : String) :
    (l.filter (fun pv => pv.1 ≠ q)).lookup q = none := by
  simp only [ne_eq, decide_not]
  induction l with
  | nil => simp
  | cons hd tl ih =>
    rw [List.filter_cons]
    by_cases hk : hd.1 = q
    · simp [hk, ih]
    · have hbeq : (q == hd.1) = false := by simp [Ne.symm hk]
      simp [hk, List.lookup, hbeq, ih]

theorem lookup_filter_ne_other {β : Type} (l : List (String × β))
    (q k : String) (h : k ≠ q) :
    (l.filter (fun pv => pv.1 ≠ q)).lookup k = l.lookup k := by
  simp only [ne_eq, decide_not]
  induction l with
  | nil => simp
  | cons hd tl ih =>
    rw [List.filter_cons]
    by_cases hk : hd.1 = q
    · have hbeq : (k == q) = false := by simp [h]
      simp [hk, List.lookup, hbeq, ih]
    · cases hbeq : (k == hd.1) <;>
        simp [hk, List.lookup, hbeq, ih]

theorem lookup_filter_not_mem_names {β : Type} (b : List (String × β))
    (names : List String) (k : String) (h : k ∉ names) :
    (b.filter (fun pv => pv.1 ∉ names)).lookup k = b.lookup k := by
  simp only [decide_not]
  induction b with
  | nil => simp
  | cons hd tl ih =>
    rw [List.filter_cons]
    by_cases hk : k = hd.1
    · rw [← hk]
      simp [h, List.lookup, ih]
    · have hbeq : (k == hd.1) = false := by simp [hk]
      by_cases hmem : hd.1 ∈ names <;>
        simp [hmem, List.lookup, hbeq, ih]

theorem lookup_map_override (a b : StoredKey) (k : String) :
    (a.map (fun pv => (pv.1, (b.lookup pv.1).getD pv.2))).lookup k =
      (a.lookup k).map (fun v => (b.lookup k).getD v) := by
  induction a with
  | nil => simp [List.lookup]
  | cons hd tl ih =>
    simp only [List.map_cons, List.lookup]
    cases hbeq : (k == hd.1) with
    | true =>
      have hk : k = hd.1 := by simpa using hbeq
      rw [hk]
      simp
    | false => exact ih

theorem jsSpread_lookup (a b : StoredKey) (k : String) :
    (jsSpread a b).lookup k = ((b.lookup k).or (a.lookup k)) := by
  unfold jsSpread
  cases ha : a.lookup k with
  | some v =>
    have h₁ := lookup_map_override a b k
    rw [ha] at h₁
    rw [lookup_append_some _ _ _ _ h₁]
    cases hb : b.lookup k <;> simp [Option.or, hb]
  | none =>
    have h₁ := lookup_map_override a b k
    rw [ha] at h₁
    simp only [Option.map_none'] at h₁
    rw [lookup_append_left _ _ _ h₁]
    have hmem : k ∉ a.map Prod.fst := (lookup_eq_none_iff a k).mp ha
    rw [lookup_filter_not_mem_names b _ k hmem]
    cases hb : b.lookup k <;> simp [Option.or]

/-- **C2 is corrected by this counterexample.**  The claim says the failure
for an unregistered KEK id is a NotFound error, but `_getKek`'s
`NotFoundError` is thrown inside `decryptKeySecrets`' `try` block, whose
`catch` rethrows every failure as an `OperationError` ("Could not decrypt
key secrets.") carrying the `NotFoundError` only as its `cause`: the error
the caller observes is named `OperationError`, not `NotFoundError`. -/
theorem c2_decrypt_notfound_counterexample :
    decryptKeySecrets []
      [("id", .plain (.str "k")),
       ("encrypted", .enc "kek1" ⟨"kek1", [9], [("secret", .str "s")]⟩)] =
      .error ⟨"OperationError", "Could not decrypt key secrets.",
        "NotFoundError"⟩ ∧
    ("OperationError" : String) ≠ "NotFoundError" := by
  constructor
  · rfl
  · decide

/-- **C2 (amended).** For every key carrying an `encrypted` property whose
`kekId` is absent from the in-memory KEK registry, `decryptKeySecrets` fails
with an `OperationError` whose cause is the `NotFoundError` from the KEK
lookup; when the `kekId` is registered (and the ciphertext decrypts under
that KEK), it returns the key's properties merged with the recovered secret
properties — the secrets winning on overlap — with the `encrypted` property
removed. -/
theorem c2_decrypt_key_secrets (keks : KekRegistry) (key : StoredKey)
    (kekId : String) (jwe : Jwe)
    (henc : key.lookup "encrypted" = some (.enc kekId jwe)) :
    (keks.lookup kekId = none →
      decryptKeySecrets keks key =
        .error ⟨"OperationError", "Could not decrypt key secrets.",
          "NotFoundError"⟩) ∧
    (∀ kek, keks.lookup kekId = some kek → jwe.encKey = kek →
      ∃ k', decryptKeySecrets keks key = .ok k' ∧
        k'.lookup "encrypted" = none ∧
        ∀ p, p ≠ "encrypted" →
          k'.lookup p =
            ((jwe.plaintext.lookup p).map Field.plain).or (key.lookup p)) := by
  constructor
  · intro habsent
    simp [decryptKeySecrets, henc, getKek, habsent, opErrorWrap]
  · intro kek hfound hmatch
    refine ⟨removeProp
      (jsSpread key (jwe.plaintext.map (fun pv => (pv.1, Field.plain pv.2))))
      "encrypted", ?_, ?_, ?_⟩
    · simp [decryptKeySecrets, henc, getKek, hfound, generalDecrypt, hmatch]
    · unfold removeProp
      exact lookup_filter_ne_self _ _
    · intro p hp
      unfold removeProp
      rw [lookup_filter_ne_other _ _ _ hp, jsSpread_lookup,
        lookup_map_plain]

/-- Witness for C2 at a concrete encrypted key: decryption fails with the
wrapped error while the KEK registry is empty and succeeds once the KEK is
registered. -/
theorem c2_decrypt_key_secrets_witness :
    decryptKeySecrets []
      [("type", .plain (.str "Sha256HmacKey2019")),
       ("encrypted", .enc "urn:test:aes256"
         ⟨"urn:test:aes256", [7, 7], [("secret", .str "s3cret")]⟩)] =
      .error ⟨"OperationError", "Could not decrypt key secrets.",
        "NotFoundError"⟩ ∧
    (∃ k', decryptKeySecrets [("urn:test:aes256", [7, 7])]
        [("type", .plain (.str "Sha256HmacKey2019")),
         ("encrypted", .enc "urn:test:aes256"
           ⟨"urn:test:aes256", [7, 7], [("secret", .str "s3cret")]⟩)] =
        .ok k' ∧
      k'.lookup "encrypted" = none ∧
      ∀ p, p ≠ "encrypted" →
        k'.lookup p =
          ((([("secret", Value.str "s3cret")] : Obj).lookup p).map
            Field.plain).or
            (([("type", Field.plain (.str "Sha256HmacKey2019")),
               ("encrypted", Field.enc "urn:test:aes256"
                 ⟨"urn:test:aes256", [7, 7],
                  [("secret", Value.str "s3cret")]⟩)] :
              StoredKey).lookup p)) :=
  ⟨(c2_decrypt_key_secrets []
      [("type", .plain (.str "Sha256HmacKey2019")),
       ("encrypted", .enc "urn:test:aes256"
         ⟨"urn:test:aes256", [7, 7], [("secret", .str "s3cret")]⟩)]
      "urn:test:aes256"
      ⟨"urn:test:aes256", [7, 7], [("secret", .str "s3cret")]⟩ rfl).1 rfl,
   (c2_decrypt_key_secrets [("urn:test:aes256", [7, 7])]
      [("type", .plain (.str "Sha256HmacKey2019")),
       ("encrypted", .enc "urn:test:aes256"
         ⟨"urn:test:aes256", [7, 7], [("secret", .str "s3cret")]⟩)]
      "urn:test:aes256"
      ⟨"urn:test:aes256", [7, 7], [("secret", .str "s3cret")]⟩ rfl).2
     [7, 7] rfl rfl⟩

/-! ## C3: uniqueness of (keystoreId, localId) on insert -/

/-- **C3.** For every insert of a key whose derived `(keystoreId, localId)`
pair equals that of an already-stored record, the insert fails with a
`DuplicateError` and the stored state — including the previously stored
record's data — is left unchanged; any storage failure that is not a
uniqueness violation propagates unchanged (same error object, state also
unchanged). -/
theorem c3_insert_duplicate (cfg : Option String) (keks : KekRegistry)
    (now : Nat) (fault : Option Err) (s : SsmState) (key : Obj) (id : String)
    (ks : String) (lid : List Nat) (ek : StoredKey)
    (hid : (key.filter (fun pv => pv.1 ≠ "controller")).lookup "id" =
      some (.str id))
    (hsplit : splitKeyId id = some (ks, lid))
    (henc : encryptKeySecrets cfg keks
      (key.filter (fun pv => pv.1 ≠ "controller")) = .ok ek) :
    (hasRecord s ks lid = true →
      keyStorageInsert cfg keks now fault s key =
        (.error ⟨"DuplicateError", "Duplicate key identifier.",
          "MongoServerError"⟩, s)) ∧
    (hasRecord s ks lid = false → ∀ e, fault = some e →
      keyStorageInsert cfg keks now fault s key = (.error e, s)) := by
  have hid' := hid
  have henc' := henc
  simp only [ne_eq, decide_not] at hid' henc'
  constructor
  · intro hdup
    simp [keyStorageInsert, hid', hsplit, henc', insertOne, hdup]
  · intro hnodup e hfault
    simp [keyStorageInsert, hid', hsplit, henc', insertOne, hnodup, hfault]

/-- Witness for C3 at a concrete key id whose derived compound identifier
collides with a stored record, and at a concrete injected backend fault. -/
theorem c3_insert_duplicate_witness :
    keyStorageInsert none [] 0 none
      [⟨"https://example.com/kms", [], ⟨0, 0⟩, []⟩]
      [("id", .str "https://example.com/kms/z11"),
       ("type", .str "AesKeyWrappingKey2019"),
       ("secret", .str "s3"),
       ("controller", .str "https://example.com/i/foo")] =
      (.error ⟨"DuplicateError", "Duplicate key identifier.",
        "MongoServerError"⟩,
       [⟨"https://example.com/kms", [], ⟨0, 0⟩, []⟩]) ∧
    keyStorageInsert none [] 0
      (some ⟨"MongoNetworkError", "connection reset", ""⟩) []
      [("id", .str "https://example.com/kms/z11"),
       ("type", .str "AesKeyWrappingKey2019"),
       ("secret", .str "s3"),
       ("controller", .str "https://example.com/i/foo")] =
      (.error ⟨"MongoNetworkError", "connection reset", ""⟩, []) :=
  ⟨(c3_insert_duplicate none [] 0 none
      [⟨"https://example.com/kms", [], ⟨0, 0⟩, []⟩]
      [("id", .str "https://example.com/kms/z11"),
       ("type", .str "AesKeyWrappingKey2019"),
       ("secret", .str "s3"),
       ("controller", .str "https://example.com/i/foo")]
      "https://example.com/kms/z11" "https://example.com/kms" [] _
      (by rfl) (by decide) (by rfl)).1 (by decide),
   (c3_insert_duplicate none [] 0
      (some ⟨"MongoNetworkError", "connection reset", ""⟩) []
      [("id", .str "https://example.com/kms/z11"),
       ("type", .str "AesKeyWrappingKey2019"),
       ("secret", .str "s3"),
       ("controller", .str "https://example.com/i/foo")]
      "https://example.com/kms/z11" "https://example.com/kms" [] _
      (by rfl) (by decide) (by rfl)).2 (by decide)
     ⟨"MongoNetworkError", "connection reset", ""⟩ rfl⟩

/-! ## base64url round trip and SHA-256 output shape -/

theorem sextetsOfBytes_lt (bs : List Nat) (h : ∀ b ∈ bs, b < 256) :
    ∀ x ∈ sextetsOfBytes bs, x < 64 := by
  induction bs using sextetsOfBytes.induct with
  | case1 => simp [sextetsOfBytes]
  | case2 b0 =>
    intro x hx
    have hb0 := h b0 (by simp)
    simp [sextetsOfBytes] at hx
    rcases hx with rfl | rfl <;> omega
  | case3 b0 b1 =>
    intro x hx
    have hb0 := h b0 (by simp)
    have hb1 := h b1 (by simp)
    simp [sextetsOfBytes] at hx
    rcases hx with rfl | rfl | rfl <;> omega
  | case4 b0 b1 b2 rest ih =>
    intro x hx
    have hb0 := h b0 (by simp)
    have hb1 := h b1 (by simp)
    have hb2 := h b2 (by simp)
    have hrest : ∀ b ∈ rest, b < 256 := fun b hb => h b (by simp [hb])
    simp only [sextetsOfBytes, List.mem_cons] at hx
    rcases hx with rfl | rfl | rfl | rfl | hx
    · omega
    · omega
    · omega
    · omega
    · exact ih hrest x hx

theorem bytesOfSextets_sextetsOfBytes (bs : List Nat)
    (h : ∀ b ∈ bs, b < 256) :
    bytesOfSextets (sextetsOfBytes bs) = bs := by
  induction bs using sextetsOfBytes.induct with
  | case1 => rfl
  | case2 b0 =>
    have hb0 := h b0 (by simp)
    simp [sextetsOfBytes, bytesOfSextets]
    omega
  | case3 b0 b1 =>
    have hb0 := h b0 (by simp)
    have hb1 := h b1 (by simp)
    simp [sextetsOfBytes, bytesOfSextets]
    omega
  | case4 b0 b1 b2 rest ih =>
    have hb0 := h b0 (by simp)
    have hb1 := h b1 (by simp)
    have hb2 := h b2 (by simp)
    have hrest : ∀ b ∈ rest, b < 256 := fun b hb => h b (by simp [hb])
    simp only [sextetsOfBytes, bytesOfSextets, ih hrest, List.cons.injEq,
      and_true]
    omega

theorem sextetsOfBytes_length_mod4 (bs : List Nat) :
    (sextetsOfBytes bs).length % 4 ≠ 1 := by
  induction bs using sextetsOfBytes.induct with
  | case1 => simp [sextetsOfBytes]
  | case2 b0 => simp [sextetsOfBytes]
  | case3 b0 b1 => simp [sextetsOfBytes]
  | case4 b0 b1 b2 rest ih =>
    simp only [sextetsOfBytes, List.length_cons] at ih ⊢
    omega

theorem b64CharIndex_encodeChar : ∀ n : Nat, n < 64 →
    b64CharIndex (b64EncodeChar n) = some n := by decide

theorem filterMap_b64_recover (ss : List Nat) (h : ∀ x ∈ ss, x < 64) :
    (ss.map b64EncodeChar).filterMap b64CharIndex = ss := by
  induction ss with
  | nil => rfl
  | cons s rest ih =>
    have hs := h s (by simp)
    have hrest : ∀ x ∈ rest, x < 64 := fun x hx => h x (by simp [hx])
    simp [List.filterMap_cons, b64CharIndex_encodeChar s hs, ih hrest]

/-- `base64url.decode ∘ base64url.encode` is the identity on byte lists. -/
theorem b64Decode_b64Encode (bs : List Nat) (h : ∀ b ∈ bs, b < 256) :
    b64Decode (b64Encode bs) = some bs := by
  have hlt := sextetsOfBytes_lt bs h
  have hvalid : ∀ c ∈ (sextetsOfBytes bs).map b64EncodeChar,
      (b64CharIndex c).isSome = true := by
    intro c hc
    obtain ⟨s, hs, rfl⟩ := List.mem_map.mp hc
    rw [b64CharIndex_encodeChar s (hlt s hs)]
    rfl
  have hlen : ((sextetsOfBytes bs).map b64EncodeChar).length % 4 ≠ 1 := by
    rw [List.length_map]
    exact sextetsOfBytes_length_mod4 bs
  show b64Decode ⟨(sextetsOfBytes bs).map b64EncodeChar⟩ = some bs
  unfold b64Decode b64DecodeLoose
  rw [if_pos ⟨List.all_eq_true.mpr hvalid, hlen⟩]
  rw [filterMap_b64_recover _ hlt, bytesOfSextets_sextetsOfBytes bs h]

theorem sha256Bytes_length (msg : List Nat) : (sha256Bytes msg).length = 32 := by
  unfold sha256Bytes
  simp [wordBytes]

theorem sha256Bytes_lt (msg : List Nat) : ∀ b ∈ sha256Bytes msg, b < 256 := by
  unfold sha256Bytes
  intro b hb
  simp only [List.mem_flatten, List.mem_map] at hb
  obtain ⟨l, ⟨w, _, rfl⟩, hbl⟩ := hb
  simp only [wordBytes, List.mem_cons, List.not_mem_nil, or_false] at hbl
  rcases hbl with rfl | rfl | rfl | rfl <;> omega

theorem hmacSha256_length (key msg : List Nat) :
    (hmacSha256 key msg).length = 32 := by
  unfold hmacSha256
  exact sha256Bytes_length _

theorem hmacSha256_lt (key msg : List Nat) :
    ∀ b ∈ hmacSha256 key msg, b < 256 := by
  unfold hmacSha256
  exact sha256Bytes_lt _

/-! ## C6: sign/verify round trip -/

theorem getD_set_self (l : List Nat) (i x : Nat) (h : i < l.length) :
    (l.set i x).getD i 0 = x := by
  simp [List.getD_eq_getElem?_getD, List.getElem?_set_self, h]

/-- **C6 is corrected by this counterexample.**  The claim quantifies over
every supported signature key type, but the asymmetric signature provider
(`lib/core/asymmetricKey.js`) exports no `verify` at all — verification of
asymmetric signatures is a client-side concern — so for
`Ed25519VerificationKey2018` (a registered type whose provider implements
`sign`) the `verify` operation fails at dispatch with the
unsupported-operation error; it can never return `verified = true`. -/
theorem c6_asymmetric_verify_counterexample :
    OPERATIONS.lookup "Ed25519VerificationKey2018" =
      some ProviderModule.asymmetricKey ∧
    "sign" ∈ moduleExports ProviderModule.asymmetricKey ∧
    "verify" ∉ moduleExports ProviderModule.asymmetricKey ∧
    getKeyOp "verify" "Ed25519VerificationKey2018" =
      .error ⟨"Error",
        "Unsupported operation \"verify\" for key type " ++
          "\"Ed25519VerificationKey2018\".", ""⟩ := by
  exact ⟨rfl, by decide, by decide, rfl⟩

/-- **C6 (amended).** For the HMAC type `Sha256HmacKey2019` — the only
supported signature key type whose provider implements `verify` — `sign`
followed by `verify` on the same data returns `verified = true`; `verify`
with any one byte of the signature changed returns `verified = false`;
`verify` on data whose decoded bytes differ from the signed data returns
`verified = false` unless the two payloads' HMACs collide (a second preimage
of HMAC-SHA-256, which no implementation can exclude); and for every
asymmetric signature type, `verify` fails at dispatch with the
unsupported-operation error. -/
theorem c6_hmac_sign_verify_roundtrip (key : SymKey) (vd : String)
    (secretBytes dataBytes : List Nat)
    (hty : key.type = "Sha256HmacKey2019")
    (hsec : b64Decode key.secret = some secretBytes)
    (hdata : b64Decode vd = some dataBytes) :
    (∃ sv, symmetricSign key vd = .ok ⟨sv⟩ ∧
      symmetricVerify key vd sv = .ok ⟨true⟩) ∧
    (∀ i x, i < 32 → x < 256 →
      x ≠ (hmacSha256 secretBytes dataBytes).getD i 0 →
      symmetricVerify key vd
        (b64Encode ((hmacSha256 secretBytes dataBytes).set i x)) =
        .ok ⟨false⟩) ∧
    (∀ (vd' : String) (dataBytes' : List Nat),
      b64Decode vd' = some dataBytes' → dataBytes' ≠ dataBytes →
      symmetricVerify key vd'
        (b64Encode (hmacSha256 secretBytes dataBytes)) = .ok ⟨false⟩ ∨
      hmacSha256 secretBytes dataBytes' = hmacSha256 secretBytes dataBytes) ∧
    (∀ ty, OPERATIONS.lookup ty = some ProviderModule.asymmetricKey →
      getKeyOp "verify" ty =
        .error ⟨"Error",
          "Unsupported operation \"verify\" for key type \"" ++ ty ++
            "\".", ""⟩) := by
  have hH := hmacSha256_length secretBytes dataBytes
  have hHlt := hmacSha256_lt secretBytes dataBytes
  refine ⟨?_, ?_, ?_, ?_⟩
  · refine ⟨b64Encode (hmacSha256 secretBytes dataBytes), ?_, ?_⟩
    · simp [symmetricSign, hty, hs256Sign, hsec, hdata]
    · have hrt := b64Decode_b64Encode _ hHlt
      simp [symmetricVerify, hty, hs256Verify, hrt, hs256Sign, hsec, hdata,
        timingSafeEqual]
  · intro i x hi hx hne
    have hlt' : ∀ b ∈ (hmacSha256 secretBytes dataBytes).set i x, b < 256 := by
      intro b hb
      rcases List.mem_or_eq_of_mem_set hb with hb' | rfl
      · exact hHlt b hb'
      · exact hx
    have hrt := b64Decode_b64Encode _ hlt'
    have hnelist : (hmacSha256 secretBytes dataBytes).set i x ≠
        hmacSha256 secretBytes dataBytes := by
      intro hcon
      exact hne (by
        rw [← getD_set_self (hmacSha256 secretBytes dataBytes) i x
          (by omega), hcon])
    have hbeq : (((hmacSha256 secretBytes dataBytes).set i x) ==
        hmacSha256 secretBytes dataBytes) = false :=
      beq_eq_false_iff_ne.mpr hnelist
    simp [symmetricVerify, hty, hs256Verify, hrt, hs256Sign, hsec, hdata,
      timingSafeEqual, List.length_set, hbeq]
  · intro vd' dataBytes' hdata' hne
    by_cases hcol : hmacSha256 secretBytes dataBytes' =
        hmacSha256 secretBytes dataBytes
    · exact Or.inr hcol
    · left
      have hrt := b64Decode_b64Encode _ hHlt
      have hbeq : (hmacSha256 secretBytes dataBytes ==
          hmacSha256 secretBytes dataBytes') = false :=
        beq_eq_false_iff_ne.mpr (fun hcon => hcol hcon.symm)
      have hH' := hmacSha256_length secretBytes dataBytes'
      simp [symmetricVerify, hty, hs256Verify, hrt, hs256Sign, hsec, hdata',
        timingSafeEqual, hH, hH', hbeq]
  · intro ty hty'
    simp [getKeyOp, hty', moduleExports]

/-- Witness for C6 at a concrete HMAC key and payload: sign-then-verify
succeeds, and flipping the first byte of the signature makes verification
return `verified = false`. -/
theorem c6_hmac_sign_verify_roundtrip_witness :
    (∃ sv, symmetricSign ⟨"Sha256HmacKey2019", "cw"⟩ "AA" = .ok ⟨sv⟩ ∧
      symmetricVerify ⟨"Sha256HmacKey2019", "cw"⟩ "AA" sv = .ok ⟨true⟩) ∧
    symmetricVerify ⟨"Sha256HmacKey2019", "cw"⟩ "AA"
      (b64Encode ((hmacSha256 [115] [0]).set 0
        (((hmacSha256 [115] [0]).getD 0 0 + 1) % 256))) = .ok ⟨false⟩ :=
  ⟨(c6_hmac_sign_verify_roundtrip ⟨"Sha256HmacKey2019", "cw"⟩ "AA" [115] [0]
      rfl (by rfl) (by rfl)).1,
   (c6_hmac_sign_verify_roundtrip ⟨"Sha256HmacKey2019", "cw"⟩ "AA" [115] [0]
      rfl (by rfl) (by rfl)).2.1 0
     (((hmacSha256 [115] [0]).getD 0 0 + 1) % 256)
     (by decide) (by decide) (by decide)⟩

/-! ## C10: HMAC verify on a wrong-length signature throws -/

/-- **C10.** For every HMAC key, `verify` called with a well-formed base64url
`signatureValue` whose decoded length differs from 32 bytes throws
(`crypto.timingSafeEqual`'s `RangeError`) rather than returning
`{verified: false}`; it returns `{verified: false}` exactly for equal-length
signatures that do not match the recomputed HMAC. -/
theorem c10_verify_length_mismatch_throws (key : SymKey) (vd sig : String)
    (secretBytes dataBytes sigBytes : List Nat)
    (hty : key.type = "Sha256HmacKey2019")
    (hsec : b64Decode key.secret = some secretBytes)
    (hdata : b64Decode vd = some dataBytes)
    (hsig : b64Decode sig = some sigBytes) :
    (sigBytes.length ≠ 32 →
      symmetricVerify key vd sig =
        .error ⟨"RangeError",
          "Input buffers must have the same byte length", ""⟩) ∧
    (symmetricVerify key vd sig = .ok ⟨false⟩ ↔
      sigBytes.length = 32 ∧ sigBytes ≠ hmacSha256 secretBytes dataBytes) := by
  have hH := hmacSha256_length secretBytes dataBytes
  constructor
  · intro hlen
    have : sigBytes.length ≠ (hmacSha256 secretBytes dataBytes).length := by
      omega
    simp [symmetricVerify, hty, hs256Verify, hsig, hs256Sign, hsec, hdata,
      timingSafeEqual, this]
  · constructor
    · intro hok
      by_cases hlen : sigBytes.length = (hmacSha256 secretBytes dataBytes).length
      · refine ⟨by omega, ?_⟩
        intro hcon
        have : (sigBytes == hmacSha256 secretBytes dataBytes) = true := by
          simp [hcon]
        simp [symmetricVerify, hty, hs256Verify, hsig, hs256Sign, hsec,
          hdata, timingSafeEqual, hlen, this] at hok
      · simp [symmetricVerify, hty, hs256Verify, hsig, hs256Sign, hsec,
          hdata, timingSafeEqual, hlen] at hok
    · rintro ⟨hlen, hne⟩
      have hlen' : sigBytes.length = (hmacSha256 secretBytes dataBytes).length := by
        omega
      have hbeq : (sigBytes == hmacSha256 secretBytes dataBytes) = false :=
        beq_eq_false_iff_ne.mpr hne
      simp [symmetricVerify, hty, hs256Verify, hsig, hs256Sign, hsec, hdata,
        timingSafeEqual, hlen', hbeq]

/-- Witness for C10 at a concrete key: a 3-byte signature triggers the
`RangeError`, and a wrong 32-byte signature yields `verified = false`. -/
theorem c10_verify_length_mismatch_throws_witness :
    symmetricVerify ⟨"Sha256HmacKey2019", "cw"⟩ "AA" "AAAA" =
      .error ⟨"RangeError",
        "Input buffers must have the same byte length", ""⟩ ∧
    symmetricVerify ⟨"Sha256HmacKey2019", "cw"⟩ "AA"
      "AAAAAAAAAAAAAAAAAAAAAAAAAAAAAAAAAAAAAAAAAAA" = .ok ⟨false⟩ :=
  ⟨(c10_verify_length_mismatch_throws ⟨"Sha256HmacKey2019", "cw"⟩ "AA"
      "AAAA" [115] [0] [0, 0, 0] rfl (by rfl) (by rfl) (by rfl)).1
      (by decide),
   (c10_verify_length_mismatch_throws ⟨"Sha256HmacKey2019", "cw"⟩ "AA"
      "AAAAAAAAAAAAAAAAAAAAAAAAAAAAAAAAAAAAAAAAAAA" [115] [0]
      (List.replicate 32 0) rfl (by rfl) (by rfl) (by decide)).2.mpr
     ⟨by decide, by decide⟩⟩

/-! ## C9: deriveSecret peer-key type matching -/

/-- **C9.** For every stored key-agreement key and every peer public key
whose resolved type — taken directly from a legacy explicit-type form, or
sniffed from the multikey header of an encoded canonical key — differs from
the stored key's type, `deriveSecret` fails with a hard error before
performing any elliptic-curve computation (the result is the same for every
possible capability `cap`, which is never invoked); an unrecognized
multibase header or multikey header also fails explicitly. -/
theorem c9_derive_secret_type_mismatch (key : KakKey) (pk : PeerPublicKey) :
    (∀ t, resolvePeerType pk = .ok t → t ≠ key.type →
      ∀ cap, kakDeriveSecret cap key pk =
        .error ⟨"Error",
          "The given public key type \"" ++ t ++ "\" does not match the " ++
            "key agreement key's type \"" ++ key.type ++ "\".", ""⟩) ∧
    (∀ e, resolvePeerType pk = .error e →
      ∀ cap, kakDeriveSecret cap key pk = .error e) ∧
    (∀ (s : String) (c : Char), s.data.head? = some c → c ≠ 'z' → c ≠ 'u' →
      parseMultikey (some s) =
        .error ⟨"NotSupportedError",
          "Unsupported multibase header \"" ++ String.mk [c] ++ "\".", ""⟩) ∧
    (∀ s : String, s.data.head? = some 'u' →
      SUPPORTED_MULTIKEY_TYPES.lookup
        (bytesToHex ((b64DecodeLoose (String.mk (s.data.drop 1))).take 2)) =
        none →
      parseMultikey (some s) =
        .error ⟨"NotSupportedError",
          "Unsupported multikey header \"" ++
            bytesToHex ((b64DecodeLoose (String.mk (s.data.drop 1))).take 2) ++
            "\".", ""⟩) := by
  refine ⟨?_, ?_, ?_, ?_⟩
  · intro t hres hne cap
    simp [kakDeriveSecret, hres, hne]
  · intro e hres cap
    simp [kakDeriveSecret, hres]
  · intro s c hhead hz hu
    simp [parseMultikey, hhead, hz, hu]
  · intro s hhead hlookup
    simp only [List.drop_one] at hlookup
    simp [parseMultikey, hhead, hlookup]

/-- Witness for C9 at concrete inputs: a legacy-typed X25519 peer key
against an ECDH-P-256 key-agreement key fails before the capability runs; a
`Multikey` peer key with multibase header `f` fails; a `Multikey` peer key
with unregistered multikey header bytes `0102` fails. -/
theorem c9_derive_secret_type_mismatch_witness :
    kakDeriveSecret (fun _ => .ok [1, 2, 3])
      ⟨"urn:webkms:multikey:ECDH-P-256"⟩
      ⟨"X25519KeyAgreementKey2020", none⟩ =
      .error ⟨"Error",
        "The given public key type \"X25519KeyAgreementKey2020\" does not " ++
          "match the key agreement key's type " ++
          "\"urn:webkms:multikey:ECDH-P-256\".", ""⟩ ∧
    kakDeriveSecret (fun _ => .ok [1, 2, 3])
      ⟨"urn:webkms:multikey:X25519"⟩ ⟨"Multikey", some "f00"⟩ =
      .error ⟨"NotSupportedError",
        "Unsupported multibase header \"f\".", ""⟩ ∧
    parseMultikey (some "uAQI") =
      .error ⟨"NotSupportedError",
        "Unsupported multikey header \"0102\".", ""⟩ := by
  refine ⟨?_, ?_, ?_⟩
  · have h := (c9_derive_secret_type_mismatch
      ⟨"urn:webkms:multikey:ECDH-P-256"⟩
      ⟨"X25519KeyAgreementKey2020", none⟩).1
      "X25519KeyAgreementKey2020" (by rfl) (by decide)
      (fun _ => .ok [1, 2, 3])
    simpa using h
  · exact (c9_derive_secret_type_mismatch ⟨"urn:webkms:multikey:X25519"⟩
      ⟨"Multikey", some "f00"⟩).2.1
      ⟨"NotSupportedError", "Unsupported multibase header \"f\".", ""⟩
      (by rfl) (fun _ => .ok [1, 2, 3])
  · exact (c9_derive_secret_type_mismatch ⟨"urn:webkms:multikey:X25519"⟩
      ⟨"Multikey", some "uAQI"⟩).2.2.2 "uAQI" (by rfl) (by rfl)

/-! ## C5: RFC 3394 AES key wrap round trip with the fixed IV -/

theorem natToBytes8BE_length (t : Nat) : (natToBytes8BE t).length = 8 := rfl

theorem xorBytes_length (a b : List Nat) :
    (xorBytes a b).length = min a.length b.length := by
  simp [xorBytes]

theorem xorBytes_cancel (a b : List Nat) (h : a.length = b.length) :
    xorBytes (xorBytes a b) b = a := by
  induction a generalizing b with
  | nil => simp [xorBytes]
  | cons x xs ih =>
    cases b with
    | nil => simp at h
    | cons y ys =>
      simp only [xorBytes, List.zipWith_cons_cons, List.cons.injEq]
      refine ⟨Nat.xor_cancel_right y x, ih ys (by simpa using h)⟩

theorem kwStep_inverse (E D : BlockCipher)
    (hED : ∀ b, b.length = 16 → D (E b) = b)
    (hE : ∀ b, b.length = 16 → (E b).length = 16)
    (t : Nat) (A Ri : List Nat) (hA : A.length = 8) (hRi : Ri.length = 8) :
    kwUnwrapStep D t (kwWrapStep E t A Ri).1 (kwWrapStep E t A Ri).2 =
      (A, Ri) ∧
    (kwWrapStep E t A Ri).1.length = 8 ∧
    (kwWrapStep E t A Ri).2.length = 8 := by
  have hcat : (A ++ Ri).length = 16 := by simp [hA, hRi]
  have hB : (E (A ++ Ri)).length = 16 := hE _ hcat
  have htake : ((E (A ++ Ri)).take 8).length = 8 := by simp [hB]
  have hxlen : (xorBytes ((E (A ++ Ri)).take 8) (natToBytes8BE t)).length =
      8 := by
    rw [xorBytes_length, htake, natToBytes8BE_length]
    simp
  refine ⟨?_, hxlen, by simp [kwWrapStep, hB]⟩
  unfold kwWrapStep kwUnwrapStep
  simp only
  rw [xorBytes_cancel _ _ (by rw [htake, natToBytes8BE_length])]
  rw [List.take_append_drop, hED _ hcat]
  rw [List.take_left' hA, List.drop_left' hA]

theorem kwMapAccum_inverse (E D : BlockCipher)
    (hED : ∀ b, b.length = 16 → D (E b) = b)
    (hE : ∀ b, b.length = 16 → (E b).length = 16) :
    ∀ (Rs : List (List Nat)) (i : Nat) (A : List Nat),
      A.length = 8 → (∀ b ∈ Rs, b.length = 8) →
      mapAccumRIdx (kwUnwrapStep D) i
        (mapAccumLIdx (kwWrapStep E) i A Rs).1
        (mapAccumLIdx (kwWrapStep E) i A Rs).2 = (A, Rs) ∧
      (mapAccumLIdx (kwWrapStep E) i A Rs).1.length = 8 ∧
      (∀ b ∈ (mapAccumLIdx (kwWrapStep E) i A Rs).2, b.length = 8) ∧
      (mapAccumLIdx (kwWrapStep E) i A Rs).2.length = Rs.length := by
  intro Rs
  induction Rs with
  | nil =>
    intro i A hA _
    exact ⟨rfl, hA, by simp [mapAccumLIdx], rfl⟩
  | cons b Rs ih =>
    intro i A hA hb
    have hblen : b.length = 8 := hb b (by simp)
    have hRs : ∀ x ∈ Rs, x.length = 8 := fun x hx => hb x (by simp [hx])
    obtain ⟨hstep, hA1, hb1⟩ := kwStep_inverse E D hED hE i A b hA hblen
    obtain ⟨hrec, hA2, hblocks, hlen⟩ :=
      ih (i + 1) (kwWrapStep E i A b).1 hA1 hRs
    constructor
    · show mapAccumRIdx (kwUnwrapStep D) i _ _ = _
      simp only [mapAccumLIdx, mapAccumRIdx]
      rw [hrec]
      simp only [hstep]
    · refine ⟨by simpa [mapAccumLIdx] using hA2, ?_, ?_⟩
      · intro x hx
        simp only [mapAccumLIdx, List.mem_cons] at hx
        rcases hx with rfl | hx
        · exact hb1
        · exact hblocks x hx
      · simpa [mapAccumLIdx] using hlen

theorem kwRound_inverse (E D : BlockCipher)
    (hED : ∀ b, b.length = 16 → D (E b) = b)
    (hE : ∀ b, b.length = 16 → (E b).length = 16)
    (n j : Nat) (s : List Nat × List (List Nat))
    (hA : s.1.length = 8) (hb : ∀ b ∈ s.2, b.length = 8) :
    kwUnwrapRound D n j (kwWrapRound E n j s) = s ∧
    (kwWrapRound E n j s).1.length = 8 ∧
    (∀ b ∈ (kwWrapRound E n j s).2, b.length = 8) ∧
    (kwWrapRound E n j s).2.length = s.2.length := by
  obtain ⟨h1, h2, h3, h4⟩ :=
    kwMapAccum_inverse E D hED hE s.2 (n * j + 1) s.1 hA hb
  refine ⟨?_, h2, h3, h4⟩
  simp only [kwWrapRound, kwUnwrapRound]
  rw [h1]

theorem kwRounds_inverse (E D : BlockCipher)
    (hED : ∀ b, b.length = 16 → D (E b) = b)
    (hE : ∀ b, b.length = 16 → (E b).length = 16) (n : Nat) :
    ∀ (js : List Nat) (s : List Nat × List (List Nat)),
      s.1.length = 8 → (∀ b ∈ s.2, b.length = 8) →
      js.reverse.foldl (fun s j => kwUnwrapRound D n j s)
        (js.foldl (fun s j => kwWrapRound E n j s) s) = s ∧
      (js.foldl (fun s j => kwWrapRound E n j s) s).1.length = 8 ∧
      (∀ b ∈ (js.foldl (fun s j => kwWrapRound E n j s) s).2, b.length = 8) ∧
      (js.foldl (fun s j => kwWrapRound E n j s) s).2.length = s.2.length := by
  intro js
  induction js with
  | nil =>
    intro s hA hb
    exact ⟨rfl, hA, hb, rfl⟩
  | cons j js ih =>
    intro s hA hb
    obtain ⟨hrinv, hrA, hrb, hrlen⟩ := kwRound_inverse E D hED hE n j s hA hb
    obtain ⟨hinv, hA', hb', hlen'⟩ := ih (kwWrapRound E n j s) hrA hrb
    simp only [List.foldl_cons, List.reverse_cons, List.foldl_append,
      List.foldl_cons, List.foldl_nil]
    exact ⟨by rw [hinv, hrinv], hA', hb', by rw [hlen', hrlen]⟩

theorem chunkAux_flatten {α : Type} (k : Nat) (hk : 0 < k) :
    ∀ (fuel : Nat) (l : List α), l.length ≤ fuel →
      (chunkAux k fuel l).flatten = l := by
  intro fuel
  induction fuel with
  | zero =>
    intro l hl
    cases l with
    | nil => rfl
    | cons x xs => simp at hl
  | succ fuel ih =>
    intro l hl
    cases l with
    | nil => rfl
    | cons x xs =>
      simp only [List.length_cons] at hl
      simp only [chunkAux, List.flatten_cons]
      rw [ih ((x :: xs).drop k) (by
        simp only [List.length_drop, List.length_cons]
        omega)]
      exact List.take_append_drop k (x :: xs)

theorem chunkAux_blocks_length {α : Type} (k : Nat) (hk : 0 < k) :
    ∀ (fuel : Nat) (l : List α), l.length ≤ fuel → k ∣ l.length →
      ∀ b ∈ chunkAux k fuel l, b.length = k := by
  intro fuel
  induction fuel with
  | zero =>
    intro l hl _ b hb
    cases l with
    | nil => simp [chunkAux] at hb
    | cons x xs => simp at hl
  | succ fuel ih =>
    intro l hl hdvd b hb
    cases l with
    | nil => simp [chunkAux] at hb
    | cons x xs =>
      have hklen : k ≤ (x :: xs).length := by
        refine Nat.le_of_dvd (by simp) hdvd
      simp only [List.length_cons] at hklen hl
      simp only [chunkAux, List.mem_cons] at hb
      rcases hb with rfl | hb
      · simp only [List.length_take, List.length_cons]
        omega
      · obtain ⟨m, hm⟩ := hdvd
        simp only [List.length_cons] at hm
        refine ih ((x :: xs).drop k) (by
          simp only [List.length_drop, List.length_cons]
          omega) ⟨m - 1, ?_⟩ b hb
        simp only [List.length_drop, List.length_cons]
        rw [hm]
        cases m with
        | zero => omega
        | succ m' =>
          simp only [Nat.add_sub_cancel, Nat.mul_succ]

theorem chunkAux_of_flatten {α : Type} (k : Nat) (hk : 0 < k) :
    ∀ (Rs : List (List α)) (fuel : Nat), (∀ b ∈ Rs, b.length = k) →
      Rs.flatten.length ≤ fuel → chunkAux k fuel Rs.flatten = Rs := by
  intro Rs
  induction Rs with
  | nil =>
    intro fuel _ _
    show chunkAux k fuel [] = []
    cases fuel <;> rfl
  | cons b Rs ih =>
    intro fuel hb hfuel
    have hblen : b.length = k := hb b (by simp)
    have hRs : ∀ x ∈ Rs, x.length = k := fun x hx => hb x (by simp [hx])
    cases hbcase : b with
    | nil => rw [hbcase] at hblen; simp at hblen; omega
    | cons y ys =>
      rw [hbcase] at hblen
      simp only [List.flatten_cons, hbcase] at hfuel ⊢
      cases fuel with
      | zero =>
        simp only [List.length_append, List.length_cons] at hfuel
        omega
      | succ fuel =>
        show chunkAux k (fuel + 1) (y :: (ys ++ Rs.flatten)) = _
        simp only [chunkAux]
        have hcons : y :: (ys ++ Rs.flatten) = (y :: ys) ++ Rs.flatten := rfl
        rw [hcons, List.take_left' hblen, List.drop_left' hblen]
        rw [ih fuel hRs (by
          simp only [List.length_append, List.length_cons] at hfuel
          omega)]

/-- **C5.** For every AES key-wrapping key (any block cipher `E` with
inverse `D` satisfying the AES-256 permutation contract on 16-byte blocks)
and every unwrapped value of whole 64-bit blocks, `wrapKey` followed by
`unwrapKey` under the same KEK returns the original value byte-for-byte —
and both operations use the fixed RFC 3394 initialization vector
`A6A6A6A6A6A6A6A6` (the deterministic constant `AES_KW_RFC3394_IV`, never a
random IV). -/
theorem c5_aes_kw_roundtrip (E D : BlockCipher)
    (hED : ∀ b, b.length = 16 → D (E b) = b)
    (hE : ∀ b, b.length = 16 → (E b).length = 16)
    (u : List Nat) (hu : u.length % 8 = 0) :
    aeskwUnwrapKey D (aeskwWrapKey E u) = some u ∧
    AES_KW_RFC3394_IV = List.replicate 8 0xa6 := by
  have hdvd : 8 ∣ u.length := Nat.dvd_of_mod_eq_zero hu
  have hflat : (toBlocks8 u).flatten = u :=
    chunkAux_flatten 8 (by omega) u.length u le_rfl
  have hblocks : ∀ b ∈ toBlocks8 u, b.length = 8 :=
    chunkAux_blocks_length 8 (by omega) u.length u le_rfl hdvd
  have hIV : (AES_KW_RFC3394_IV).length = 8 := rfl
  obtain ⟨hinv, hA8, hwb, hwlen⟩ := kwRounds_inverse E D hED hE
    (toBlocks8 u).length (List.range 6)
    (AES_KW_RFC3394_IV, toBlocks8 u) hIV hblocks
  refine ⟨?_, rfl⟩
  set w := (List.range 6).foldl
    (fun s j => kwWrapRound E (toBlocks8 u).length j s)
    (AES_KW_RFC3394_IV, toBlocks8 u) with hw
  have hwrap : aeskwWrapKey E u = w.1 ++ w.2.flatten := rfl
  rw [hwrap]
  have htb : toBlocks8 (w.2.flatten) = w.2 :=
    chunkAux_of_flatten 8 (by omega) w.2 (w.2.flatten).length hwb le_rfl
  simp only [aeskwUnwrapKey]
  rw [List.take_left' hA8, List.drop_left' hA8, htb, hwlen]
  rw [show ((w.1, w.2) : List Nat × List (List Nat)) = w from rfl]
  rw [hinv]
  simp [hflat]

/-- Witness for C5 at a concrete 16-byte value with the identity block
permutation (which satisfies the cipher contract). -/
theorem c5_aes_kw_roundtrip_witness :
    aeskwUnwrapKey (fun b => b)
      (aeskwWrapKey (fun b => b) (List.range 16)) =
      some (List.range 16) ∧
    AES_KW_RFC3394_IV = List.replicate 8 0xa6 :=
  c5_aes_kw_roundtrip (fun b => b) (fun b => b) (fun _ _ => rfl)
    (fun _ h => h) (List.range 16) (by decide)

end Ssm
